import Mathlib

/-!
Verification of the rweb-openapi OpenAPI 3.0 document model
(`src/lib.rs`, `src/v3_0/schema.rs`, `src/v3_0/components.rs`).

The Rust code is a passive data model whose behaviour is entirely the
serde-derived serialization (encode) and deserialization (decode) against
a JSON/YAML keyed structure.  We shallowly embed that behaviour:

* `Json` is the textual value tree (`serde_json::Value`), with objects as
  order-preserving association lists.
* Rust `Cow<'static, str>` (`Str`) is `String`; `url::Url` is modelled by
  its serialized string form (no claim depends on URL validation).
* `IndexMap` is an insertion-ordered association list; `BTreeMap` is an
  association list carrying a strict-ascending-key invariant (`BMap`).
* Each `#[derive(Serialize)]` struct becomes an `encode…` function that
  emits its fields in declaration order, honouring every
  `skip_serializing_if` attribute; each `#[derive(Deserialize)]` struct
  becomes a `decode…` function that reads each serialized field name,
  errors on a missing non-`Option` field, defaults a missing `Option`
  field to `none`, and ignores unknown keys — exactly serde's behaviour.
  Inputs are read through `getField`, which also reproduces serde's
  rejection of duplicate occurrences of a known field.
* `#[serde(untagged)]` enums try their variants in declaration order and
  replace the inner error of the last variant by a no-variant-matched
  error; `#[serde(tag = "type")]` reads the discriminant and switches.
* Decoding of the recursive schema type is indexed by a fuel parameter
  (serde_json itself enforces a recursion depth limit); fuel exhaustion
  is the `depthLimit` error and every theorem quantifies over sufficient
  fuel.
-/

/-- `Str` in `lib.rs` is `Cow<'static, str>`; modelled as `String`. -/
abbrev Str := String

/-- `url::Url`, modelled as its serialized string form. -/
abbrev Url := String

/-- JSON value tree (`serde_json::Value`).  Objects keep entry order.
Numbers are modelled as integers; no claim involves float payloads. -/
inductive Json where
  | null
  | bool (b : Bool)
  | num (n : Int)
  | str (s : String)
  | arr (elements : List Json)
  | obj (entries : List (String × Json))

/-- `IndexMap<Str, α>`: insertion-ordered association list. -/
abbrev IMap (α : Type) : Type := List (String × α)

/-- Structured decode errors (section 7 of the specification's taxonomy;
serde reports these as message strings, we keep them as data). -/
inductive DErr where
  | missingField (name : String)
  | duplicateField (name : String)
  | typeMismatch (name : String)
  | invalidReferenceFormat (s : String)
  | unknownVariant (tag : String)
  | noVariantMatched (enumName : String)
  | depthLimit
  deriving DecidableEq

/-- Byte-lexicographic order on characters' code points (UTF-8 byte order
and code-point order agree), used to model `BTreeMap`'s `Ord for str`. -/
def charListLt : List Char → List Char → Bool
  | [], [] => false
  | [], _ :: _ => true
  | _ :: _, [] => false
  | a :: as, b :: bs =>
    if a.toNat < b.toNat then true
    else if b.toNat < a.toNat then false
    else charListLt as bs

/-- Lexicographic strict order on strings (Rust's `Ord for str`). -/
def strLtB (a b : String) : Bool := charListLt a.data b.data

/-! ## Serialization combinators

Every serde-emitted struct is an object whose field list is a
concatenation of per-field chunks.  `omitIf` models a
`skip_serializing_if` attribute with an arbitrary emptiness test;
`optField` models `skip_serializing_if = "Option::is_none"`. -/

/-- Field chunk under `skip_serializing_if`: omitted exactly when the
skip predicate holds. -/
def omitIf (skip : Bool) (k : String) (v : Json) : List (String × Json) :=
  if skip then [] else [(k, v)]

/-- `Option` field chunk under `skip_serializing_if = "Option::is_none"`. -/
def optField (k : String) (o : Option α) (f : α → Json) : List (String × Json) :=
  match o with
  | none => []
  | some a => [(k, f a)]

/-! ## Deserialization combinators -/

/-- Read a field from the input object: serde's map visitor takes the
value of a known field, errors if the same field occurs twice, and treats
an absent field per the field type (see the helpers below). -/
def getField (kvs : List (String × Json)) (name : String) : Except DErr (Option Json) :=
  match kvs.filter (fun e => e.1 == name) with
  | [] => .ok none
  | [e] => .ok (some e.2)
  | _ => .error (.duplicateField name)

/-- Required string field (a non-`Option` `Str` field has no
`#[serde(default)]` in this codebase, so absence is an error). -/
def reqStr (kvs : List (String × Json)) (name : String) : Except DErr Str := do
  match ← getField kvs name with
  | some (.str s) => pure s
  | some _ => throw (.typeMismatch name)
  | none => throw (.missingField name)

/-- Optional string field (`Option<Str>` / `Option<Url>`): missing is `none`. -/
def optStr (kvs : List (String × Json)) (name : String) : Except DErr (Option Str) := do
  match ← getField kvs name with
  | some (.str s) => pure (some s)
  | some _ => throw (.typeMismatch name)
  | none => pure none

/-- Optional boolean field (`Option<bool>`). -/
def optBool (kvs : List (String × Json)) (name : String) : Except DErr (Option Bool) := do
  match ← getField kvs name with
  | some (.bool b) => pure (some b)
  | some _ => throw (.typeMismatch name)
  | none => pure none

/-- Optional unsigned-integer field (`Option<usize>`): negative numbers
are rejected. -/
def optUsize (kvs : List (String × Json)) (name : String) : Except DErr (Option Nat) := do
  match ← getField kvs name with
  | some (.num (.ofNat m)) => pure (some m)
  | some _ => throw (.typeMismatch name)
  | none => pure none

/-- Optional opaque JSON field (`Option<serde_json::Value>`). -/
def optVal (kvs : List (String × Json)) (name : String) : Except DErr (Option Json) := do
  match ← getField kvs name with
  | some v => pure (some v)
  | none => pure none

/-- List of strings (`Vec<Str>` content). -/
def decodeStrList : List Json → Except DErr (List Str)
  | [] => pure []
  | .str s :: rest => do pure (s :: (← decodeStrList rest))
  | _ :: _ => throw (.typeMismatch "string")

/-- Required `Vec<Str>` field (no `#[serde(default)]`, absence errors). -/
def reqStrList (kvs : List (String × Json)) (name : String) : Except DErr (List Str) := do
  match ← getField kvs name with
  | some (.arr js) => decodeStrList js
  | some _ => throw (.typeMismatch name)
  | none => throw (.missingField name)

/-- `IndexMap::insert`: an existing key keeps its position and gets the
new value; a fresh key is appended. -/
def imapInsert (k : String) (v : α) (m : IMap α) : IMap α :=
  if m.any (fun e => e.1 == k) then m.map (fun e => if e.1 == k then (k, v) else e)
  else m ++ [(k, v)]

/-- Decode an `IndexMap<Str, Str>` (e.g. OAuth flow scopes), inserting
entries in input order. -/
def decodeStrMapGo (acc : IMap Str) : List (String × Json) → Except DErr (IMap Str)
  | [] => pure acc
  | (k, .str v) :: rest => decodeStrMapGo (imapInsert k v acc) rest
  | (_, _) :: _ => throw (.typeMismatch "string map")

/-- Required `IndexMap<Str, Str>` field. -/
def reqStrMap (kvs : List (String × Json)) (name : String) : Except DErr (IMap Str) := do
  match ← getField kvs name with
  | some (.obj es) => decodeStrMapGo [] es
  | some _ => throw (.typeMismatch name)
  | none => throw (.missingField name)

/-- Decode the entries of `dependent_required : IndexMap<Str, Vec<Str>>`. -/
def decodeDepReqGo (acc : IMap (List Str)) :
    List (String × Json) → Except DErr (IMap (List Str))
  | [] => pure acc
  | (k, .arr js) :: rest => do
    let vs ← decodeStrList js
    decodeDepReqGo (imapInsert k vs acc) rest
  | (_, _) :: _ => throw (.typeMismatch "dependentRequired")

/-! ## The component reference codec (`mod component_ser_as_ref`) -/

/-- `PATH_REF_PREFIX` of `component_ser_as_ref` (renamed: token rules). -/
def PATH_REF_BASE : String := "#/components/schemas/"

/-- Rust `str::strip_prefix`, on the underlying character data. -/
def stripStart (p s : String) : Option String :=
  if s.data.take p.data.length = p.data then some (String.mk (s.data.drop p.data.length))
  else none

/-- `component_ser_as_ref::serialize`: emit the canonical pointer string. -/
def component_ser (component : Str) : Json := .str (PATH_REF_BASE ++ component)

/-- `component_ser_as_ref::deserialize`: require a string carrying the
canonical base and strip it; anything else is the codec's custom error
("not a component schema reference path"). -/
def component_deser (j : Json) : Except DErr Str :=
  match j with
  | .str s =>
    match stripStart PATH_REF_BASE s with
    | some name => .ok name
    | none => .error (.invalidReferenceFormat s)
  | _ => .error (.typeMismatch "$ref")

/-! ## The recursive schema node -/

/-- The `Type` enum of `schema.rs` (renamed `SType`: `Type` is taken). -/
inductive SType where
  | string | number | integer | boolean | array | object | file
  deriving DecidableEq

/-- Serialization of `Type`'s unit variants (their `#[serde(rename)]`s). -/
def encodeSType : SType → Json
  | .string => .str "string"
  | .number => .str "number"
  | .integer => .str "integer"
  | .boolean => .str "boolean"
  | .array => .str "array"
  | .object => .str "object"
  | .file => .str "file"

/-- Enum-variant lookup for `Type` deserialization. -/
def parseSType (t : String) : Option SType :=
  if t == "string" then some .string
  else if t == "number" then some .number
  else if t == "integer" then some .integer
  else if t == "boolean" then some .boolean
  else if t == "array" then some .array
  else if t == "object" then some .object
  else if t == "file" then some .file
  else none

/-- Optional `Type` field (`schema_type`, serialized "type"). -/
def optSType (kvs : List (String × Json)) (name : String) : Except DErr (Option SType) := do
  match ← getField kvs name with
  | some (.str t) =>
    match parseSType t with
    | some ty => pure (some ty)
    | none => throw (.unknownVariant t)
  | some _ => throw (.typeMismatch name)
  | none => pure none

/-- The `Schema` struct of `schema.rs`, fields in declaration order, with
child positions abstracted (`χ` will be `ComponentOrInlineSchema`).  The
`Box` indirections of the source are representation-only. -/
structure SchemaF (χ : Type) where
  description : Str
  format : Str
  items : Option χ
  properties : List (String × χ)
  read_only : Option Bool
  write_only : Option Bool
  nullable : Option Bool
  additional_properties : Option χ
  «example» : Option Json
  title : Str
  default : Option Json
  all_of : List χ
  one_of : List χ
  any_of : List χ
  schema_type : Option SType
  enum_values : List Str
  const_value : Option Json
  multiple_of : Option Json
  minimum : Option Json
  exclusive_minimum : Option Json
  maximum : Option Json
  exclusive_maximum : Option Json
  max_length : Option Nat
  min_length : Option Nat
  pattern : Str
  max_items : Option Nat
  min_items : Option Nat
  unique_items : Option Bool
  max_properties : Option Nat
  min_properties : Option Nat
  required : List Str
  dependent_required : List (String × List Str)

/-- `ComponentOrInlineSchema`: untagged union of a component reference
(the `$ref` field, through the codec) or an inline `Schema`; the
`Component` variant is declared first. -/
inductive ComponentOrInlineSchema where
  | Component (name : Str)
  | Inline (s : SchemaF ComponentOrInlineSchema)

/-- The recursive `Schema` type. -/
abbrev Schema := SchemaF ComponentOrInlineSchema

/-- `ObjectOrReference<T>` (`components.rs`): untagged union with the
inline `Object` variant declared first and the `$ref` variant second. -/
inductive ObjectOrReference (T : Type) where
  | Object (obj : T)
  | Ref (ref_path : Str)

/-- Encode `dependent_required` (`IndexMap<Str, Vec<Str>>`). -/
def encodeDepReq (m : IMap (List Str)) : List (String × Json) :=
  m.map (fun e => (e.1, .arr (e.2.map Json.str)))

mutual

/-- Serialize a `ComponentOrInlineSchema` (untagged: `Component` emits
the single `$ref` key through the codec; `Inline` emits the schema's
field set). -/
def encodeCIS : ComponentOrInlineSchema → Json
  | .Component name => .obj [("$ref", component_ser name)]
  | .Inline s => .obj (schemaFields s)

/-- The field list a `Schema` serializes to: declaration order, honouring
each field's `skip_serializing_if` attribute (`str::is_empty`,
`IndexMap::is_empty`, `Vec::is_empty`, `Option::is_none`), with
`#[serde(rename_all = "camelCase")]` names. -/
def schemaFields : SchemaF ComponentOrInlineSchema → List (String × Json)
  | ⟨de, fo, it, pr, ro, wo, nu, ap, ex, ti, df, ao, oo, ay, st, ev, cv, mo, mn, emn, mx,
      emx, mal, mil, pa, mai, mii, ui, mpr, mipr, rq, dr⟩ =>
    omitIf de.isEmpty "description" (.str de)
    ++ omitIf fo.isEmpty "format" (.str fo)
    ++ (match it with | none => [] | some c => [("items", encodeCIS c)])
    ++ omitIf pr.isEmpty "properties" (.obj (encodeProps pr))
    ++ optField "readOnly" ro Json.bool
    ++ optField "writeOnly" wo Json.bool
    ++ optField "nullable" nu Json.bool
    ++ (match ap with | none => [] | some c => [("additionalProperties", encodeCIS c)])
    ++ optField "example" ex id
    ++ omitIf ti.isEmpty "title" (.str ti)
    ++ optField "default" df id
    ++ omitIf ao.isEmpty "allOf" (.arr (encodeCISList ao))
    ++ omitIf oo.isEmpty "oneOf" (.arr (encodeCISList oo))
    ++ omitIf ay.isEmpty "anyOf" (.arr (encodeCISList ay))
    ++ optField "type" st encodeSType
    ++ omitIf ev.isEmpty "enum" (.arr (ev.map Json.str))
    ++ optField "const" cv id
    ++ optField "multipleOf" mo id
    ++ optField "minimum" mn id
    ++ optField "exclusiveMinimum" emn id
    ++ optField "maximum" mx id
    ++ optField "exclusiveMaximum" emx id
    ++ optField "maxLength" mal (fun m => .num (Int.ofNat m))
    ++ optField "minLength" mil (fun m => .num (Int.ofNat m))
    ++ omitIf pa.isEmpty "pattern" (.str pa)
    ++ optField "maxItems" mai (fun m => .num (Int.ofNat m))
    ++ optField "minItems" mii (fun m => .num (Int.ofNat m))
    ++ optField "uniqueItems" ui Json.bool
    ++ optField "maxProperties" mpr (fun m => .num (Int.ofNat m))
    ++ optField "minProperties" mipr (fun m => .num (Int.ofNat m))
    ++ omitIf rq.isEmpty "required" (.arr (rq.map Json.str))
    ++ omitIf dr.isEmpty "dependentRequired" (.obj (encodeDepReq dr))

/-- Serialize the `properties` map entries, preserving stored order. -/
def encodeProps : IMap ComponentOrInlineSchema → List (String × Json)
  | [] => []
  | (k, c) :: rest => (k, encodeCIS c) :: encodeProps rest

/-- Serialize a list of schema children (`all_of`/`one_of`/`any_of`). -/
def encodeCISList : List ComponentOrInlineSchema → List Json
  | [] => []
  | c :: rest => encodeCIS c :: encodeCISList rest

end

/-- Serialize a `Schema`. -/
def encodeSchema (s : Schema) : Json := .obj (schemaFields s)

/-- Serialize an `ObjectOrReference<T>` given `T`'s serializer: `Object`
emits `T`'s field set, `Ref` the single `$ref` key. -/
def encodeOOR (f : T → Json) : ObjectOrReference T → Json
  | .Object o => f o
  | .Ref p => .obj [("$ref", .str p)]

/-! ## Decoding the recursive schema -/

/-- The attempt of `ComponentOrInlineSchema`'s first (untagged) variant:
a keyed structure whose `$ref` field decodes through the codec.  `none`
means the variant fails (and the untagged decoder falls through to
`Inline`): not a keyed structure, `$ref` absent or duplicated, or the
codec rejecting the value. -/
def tryComponentRef (j : Json) : Option Str :=
  match j with
  | .obj kvs =>
    match getField kvs "$ref" with
    | .ok (some jv) =>
      match component_deser jv with
      | .ok name => some name
      | .error _ => none
    | _ => none
  | _ => none

/-- The attempt of `ObjectOrReference`'s `Ref` variant: a keyed structure
whose `$ref` field is a string (taken verbatim, no codec). -/
def tryRefPath (j : Json) : Option Str :=
  match j with
  | .obj kvs =>
    match getField kvs "$ref" with
    | .ok (some (.str p)) => some p
    | _ => none
  | _ => none

mutual

/-- Deserialize a `Schema`: read every field of the struct, in
declaration order, by its camelCase serialized name.  Non-`Option`
fields (`Str`, `Vec`, `IndexMap`) error when absent — they carry
`skip_serializing_if` but no `#[serde(default)]` in the source — while
`Option` fields default to `none`.  Unknown keys are ignored. -/
def decodeSchema : Nat → Json → Except DErr Schema
  | 0, _ => .error .depthLimit
  | n + 1, .obj kvs => do
    let de ← reqStr kvs "description"
    let fo ← reqStr kvs "format"
    let it ← (do
      match ← getField kvs "items" with
      | none => pure none
      | some jv => pure (some (← decodeCIS n jv)))
    let pr ← (do
      match ← getField kvs "properties" with
      | some (.obj pvs) => decodePropsGo n [] pvs
      | some _ => throw (.typeMismatch "properties")
      | none => throw (.missingField "properties"))
    let ro ← optBool kvs "readOnly"
    let wo ← optBool kvs "writeOnly"
    let nu ← optBool kvs "nullable"
    let ap ← (do
      match ← getField kvs "additionalProperties" with
      | none => pure none
      | some jv => pure (some (← decodeCIS n jv)))
    let ex ← optVal kvs "example"
    let ti ← reqStr kvs "title"
    let df ← optVal kvs "default"
    let ao ← (do
      match ← getField kvs "allOf" with
      | some (.arr js) => decodeCISList n js
      | some _ => throw (.typeMismatch "allOf")
      | none => throw (.missingField "allOf"))
    let oo ← (do
      match ← getField kvs "oneOf" with
      | some (.arr js) => decodeCISList n js
      | some _ => throw (.typeMismatch "oneOf")
      | none => throw (.missingField "oneOf"))
    let ay ← (do
      match ← getField kvs "anyOf" with
      | some (.arr js) => decodeCISList n js
      | some _ => throw (.typeMismatch "anyOf")
      | none => throw (.missingField "anyOf"))
    let st ← optSType kvs "type"
    let ev ← reqStrList kvs "enum"
    let cv ← optVal kvs "const"
    let mo ← optVal kvs "multipleOf"
    let mn ← optVal kvs "minimum"
    let emn ← optVal kvs "exclusiveMinimum"
    let mx ← optVal kvs "maximum"
    let emx ← optVal kvs "exclusiveMaximum"
    let mal ← optUsize kvs "maxLength"
    let mil ← optUsize kvs "minLength"
    let pa ← reqStr kvs "pattern"
    let mai ← optUsize kvs "maxItems"
    let mii ← optUsize kvs "minItems"
    let ui ← optBool kvs "uniqueItems"
    let mpr ← optUsize kvs "maxProperties"
    let mipr ← optUsize kvs "minProperties"
    let rq ← reqStrList kvs "required"
    let dr ← (do
      match ← getField kvs "dependentRequired" with
      | some (.obj dvs) => decodeDepReqGo [] dvs
      | some _ => throw (.typeMismatch "dependentRequired")
      | none => throw (.missingField "dependentRequired"))
    pure ⟨de, fo, it, pr, ro, wo, nu, ap, ex, ti, df, ao, oo, ay, st, ev, cv, mo, mn,
      emn, mx, emx, mal, mil, pa, mai, mii, ui, mpr, mipr, rq, dr⟩
  | _ + 1, _ => .error (.typeMismatch "Schema")

/-- Deserialize a `ComponentOrInlineSchema` (untagged, `Component`
first): if the `$ref`-through-codec variant succeeds take it, otherwise
try an inline `Schema`; if both fail, serde reports that no variant of
the untagged enum matched. -/
def decodeCIS : Nat → Json → Except DErr ComponentOrInlineSchema
  | 0, _ => .error .depthLimit
  | n + 1, j =>
    match tryComponentRef j with
    | some name => .ok (.Component name)
    | none =>
      match decodeSchema n j with
      | .ok s => .ok (.Inline s)
      | .error _ => .error (.noVariantMatched "ComponentOrInlineSchema")

/-- Deserialize the elements of `all_of`/`one_of`/`any_of`. -/
def decodeCISList : Nat → List Json → Except DErr (List ComponentOrInlineSchema)
  | _, [] => .ok []
  | 0, _ :: _ => .error .depthLimit
  | n + 1, jv :: rest => do
    let c ← decodeCIS n jv
    let cs ← decodeCISList n rest
    pure (c :: cs)

/-- Deserialize the `properties` map: entries are decoded and inserted
(`IndexMap::insert`) in input order. -/
def decodePropsGo : Nat → List (String × ComponentOrInlineSchema) →
    List (String × Json) → Except DErr (List (String × ComponentOrInlineSchema))
  | _, acc, [] => .ok acc
  | 0, _, _ :: _ => .error .depthLimit
  | n + 1, acc, (k, jv) :: rest => do
    let c ← decodeCIS n jv
    decodePropsGo n (imapInsert k c acc) rest

end

/-- Deserialize an `ObjectOrReference<T>` given `T`'s decoder (untagged,
`Object` declared first): the inline variant is attempted first and wins
whenever it succeeds; only if it fails is the `$ref` variant tried. -/
def decodeOOR (d : Json → Except DErr T) (j : Json) : Except DErr (ObjectOrReference T) :=
  match d j with
  | .ok t => .ok (.Object t)
  | .error _ =>
    match tryRefPath j with
    | some p => .ok (.Ref p)
    | none => .error (.noVariantMatched "ObjectOrReference")

/-- `ObjectOrReference<Schema>` decoding at a given recursion budget. -/
def decodeOORSchema (n : Nat) (j : Json) : Except DErr (ObjectOrReference Schema) :=
  decodeOOR (decodeSchema n) j

/-! ## Fully-populated schema trees

`fullness` predicates, indexed by the same fuel discipline as the
decoder: a tree is *full* when every `skip_serializing_if` field whose
emptiness test is on a string, sequence or map holds a non-empty value
(`Option` fields may be unset), map keys are duplicate-free, and the
tree fits in the given recursion budget. -/

/-- Keys of an association list are pairwise distinct. -/
def keysUnique : List (String × α) → Bool
  | [] => true
  | (k, _) :: rest => !(rest.any (fun e => e.1 == k)) && keysUnique rest

mutual

/-- A `Schema` all of whose omit-when-empty string/sequence/map fields
are non-empty, recursively, within recursion budget. -/
def schemaFull : Nat → Schema → Bool
  | 0, _ => false
  | n + 1, s =>
    !s.description.isEmpty && !s.format.isEmpty
    && (match s.items with | none => true | some c => cisFull n c)
    && !s.properties.isEmpty && keysUnique s.properties && propsFull n s.properties
    && (match s.additional_properties with | none => true | some c => cisFull n c)
    && !s.title.isEmpty
    && !s.all_of.isEmpty && cisListFull n s.all_of
    && !s.one_of.isEmpty && cisListFull n s.one_of
    && !s.any_of.isEmpty && cisListFull n s.any_of
    && !s.enum_values.isEmpty
    && !s.pattern.isEmpty
    && !s.required.isEmpty
    && !s.dependent_required.isEmpty && keysUnique s.dependent_required

/-- Fullness for a `ComponentOrInlineSchema` child. -/
def cisFull : Nat → ComponentOrInlineSchema → Bool
  | 0, _ => false
  | _ + 1, .Component _ => true
  | n + 1, .Inline s => schemaFull n s

/-- Fullness for `all_of`/`one_of`/`any_of` elements. -/
def cisListFull : Nat → List ComponentOrInlineSchema → Bool
  | _, [] => true
  | 0, _ :: _ => false
  | n + 1, c :: rest => cisFull n c && cisListFull n rest

/-- Fullness for `properties` entries. -/
def propsFull : Nat → List (String × ComponentOrInlineSchema) → Bool
  | _, [] => true
  | 0, _ :: _ => false
  | n + 1, (_, c) :: rest => cisFull n c && propsFull n rest

end

/-- Fullness for an `ObjectOrReference<Schema>`. -/
def oorFull : Nat → ObjectOrReference Schema → Bool
  | 0, _ => false
  | n + 1, .Object s => schemaFull (n + 1) s
  | _ + 1, .Ref _ => true

/-! ## The remaining document structures (`schema.rs`), and their
serializers.  All are plain field containers; their serializers emit
declaration-order field lists honouring each `skip_serializing_if`. -/

/-- Generic `IndexMap` serializer: entries in stored order. -/
def encodeIMap (f : α → Json) (m : IMap α) : Json :=
  .obj (m.map (fun e => (e.1, f e.2)))

/-- Generic `Vec` serializer. -/
def encodeList (f : α → Json) (l : List α) : Json := .arr (l.map f)

/-- `ExampleValue`: untagged union of an embedded literal example or an
external URL, `Embedded` declared first. -/
inductive ExampleValue where
  | Embedded (value : Json)
  | External (external_value : Str)

/-- The field set an `ExampleValue` variant serializes to. -/
def exampleValueFields : ExampleValue → List (String × Json)
  | .Embedded v => [("value", v)]
  | .External s => [("externalValue", .str s)]

/-- `Example`: summary/description plus a flattened optional
`ExampleValue`. -/
structure Example where
  summary : Str
  description : Str
  value : Option ExampleValue

/-- Serialize an `Example` (`value` is `#[serde(flatten)]`ed). -/
def encodeExample (e : Example) : Json :=
  .obj (omitIf e.summary.isEmpty "summary" (.str e.summary)
    ++ omitIf e.description.isEmpty "description" (.str e.description)
    ++ (match e.value with | none => [] | some ev => exampleValueFields ev))

/-- The `Location` enum (serialized values of its variants). -/
inductive Location where
  | Query | Header | Path | FormData

def encodeLocation : Location → Json
  | .Query => .str "query"
  | .Header => .str "header"
  | .Path => .str "path"
  | .FormData => .str "formData"

/-- `ParameterStyle` (`rename_all = "camelCase"`). -/
inductive ParameterStyle where
  | Matrix | Label | Form | Simple | SpaceDelimited | PipeDelimited | DeepObject

def encodeParameterStyle : ParameterStyle → Json
  | .Matrix => .str "matrix"
  | .Label => .str "label"
  | .Form => .str "form"
  | .Simple => .str "simple"
  | .SpaceDelimited => .str "spaceDelimited"
  | .PipeDelimited => .str "pipeDelimited"
  | .DeepObject => .str "deepObject"

/-- `Header` (the simplified header object of `schema.rs`). -/
structure Header where
  required : Option Bool
  schema : Option ComponentOrInlineSchema
  unique_items : Option Bool
  param_type : Option SType
  format : Str
  description : Str

def encodeHeader (h : Header) : Json :=
  .obj (optField "required" h.required Json.bool
    ++ (match h.schema with | none => [] | some c => [("schema", encodeCIS c)])
    ++ optField "uniqueItems" h.unique_items Json.bool
    ++ optField "type" h.param_type encodeSType
    ++ omitIf h.format.isEmpty "format" (.str h.format)
    ++ omitIf h.description.isEmpty "description" (.str h.description))

/-- `MediaTypeExample`: untagged single example or examples map. -/
inductive MediaTypeExample where
  | Example (ex : Json)
  | Examples (examples : IMap (ObjectOrReference Example))

def mediaTypeExampleFields : MediaTypeExample → List (String × Json)
  | .Example v => [("example", v)]
  | .Examples m => [("examples", encodeIMap (encodeOOR encodeExample) m)]

/-- `Encoding` (single encoding definition). -/
structure Encoding where
  content_type : Str
  headers : IMap (ObjectOrReference Header)
  style : Str
  explode : Option Bool
  allow_reserved : Option Bool

def encodeEncoding (e : Encoding) : Json :=
  .obj (omitIf e.content_type.isEmpty "contentType" (.str e.content_type)
    ++ omitIf e.headers.isEmpty "headers"
        (encodeIMap (encodeOOR encodeHeader) e.headers)
    ++ omitIf e.style.isEmpty "style" (.str e.style)
    ++ optField "explode" e.explode Json.bool
    ++ optField "allowReserved" e.allow_reserved Json.bool)

/-- `MediaType`: schema plus flattened optional example(s) plus encoding
map. -/
structure MediaType where
  schema : Option ComponentOrInlineSchema
  examples : Option MediaTypeExample
  encoding : IMap Encoding

def encodeMediaType (m : MediaType) : Json :=
  .obj ((match m.schema with | none => [] | some c => [("schema", encodeCIS c)])
    ++ (match m.examples with | none => [] | some e => mediaTypeExampleFields e)
    ++ omitIf m.encoding.isEmpty "encoding" (encodeIMap encodeEncoding m.encoding))

/-- `RequestBody`. -/
structure RequestBody where
  description : Str
  content : IMap MediaType
  required : Option Bool

def encodeRequestBody (r : RequestBody) : Json :=
  .obj (omitIf r.description.isEmpty "description" (.str r.description)
    ++ [("content", encodeIMap encodeMediaType r.content)]
    ++ optField "required" r.required Json.bool)

/-- `ServerVariable`. -/
structure ServerVariable where
  default : Str
  substitutions_enum : List Str
  description : Str

def encodeServerVariable (v : ServerVariable) : Json :=
  .obj ([("default", .str v.default)]
    ++ omitIf v.substitutions_enum.isEmpty "enum"
        (.arr (v.substitutions_enum.map Json.str))
    ++ omitIf v.description.isEmpty "description" (.str v.description))

/-- `Server`. -/
structure Server where
  url : Str
  description : Str
  «variables» : IMap ServerVariable

def encodeServer (s : Server) : Json :=
  .obj ([("url", .str s.url)]
    ++ omitIf s.description.isEmpty "description" (.str s.description)
    ++ omitIf s.«variables».isEmpty "variables"
        (encodeIMap encodeServerVariable s.«variables»))

/-- `RuntimeExpressionOrValue`: untagged runtime expression (string) or
literal JSON value. -/
inductive RuntimeExpressionOrValue where
  | RuntimeExpression (e : Str)
  | LiteralValue (v : Json)

def encodeREoV : RuntimeExpressionOrValue → Json
  | .RuntimeExpression e => .str e
  | .LiteralValue v => v

/-- `LinkOperation`: untagged operation-id or operation-ref target. -/
inductive LinkOperation where
  | Id (operation_id : Str)
  | Ref (operation_ref : Str)

def linkOperationFields : LinkOperation → List (String × Json)
  | .Id oid => [("operationId", .str oid)]
  | .Ref oref => [("operationRef", .str oref)]

/-- `Link`. -/
structure Link where
  operation : LinkOperation
  parameters : IMap RuntimeExpressionOrValue
  request_body : Option RuntimeExpressionOrValue
  description : Str
  server : Option Server

def encodeLink (l : Link) : Json :=
  .obj (linkOperationFields l.operation
    ++ omitIf l.parameters.isEmpty "parameters" (encodeIMap encodeREoV l.parameters)
    ++ optField "requestBody" l.request_body encodeREoV
    ++ omitIf l.description.isEmpty "description" (.str l.description)
    ++ optField "server" l.server encodeServer)

/-- `Response`: `description` is always emitted (no skip attribute). -/
structure Response where
  description : Str
  headers : IMap (ObjectOrReference Header)
  content : IMap MediaType
  links : IMap (ObjectOrReference Link)

def encodeResponse (r : Response) : Json :=
  .obj ([("description", .str r.description)]
    ++ omitIf r.headers.isEmpty "headers"
        (encodeIMap (encodeOOR encodeHeader) r.headers)
    ++ omitIf r.content.isEmpty "content" (encodeIMap encodeMediaType r.content)
    ++ omitIf r.links.isEmpty "links" (encodeIMap (encodeOOR encodeLink) r.links))

/-- `ParameterRepresentation`: untagged schema-or-content alternative. -/
inductive ParameterRepresentation where
  | Simple (schema : ComponentOrInlineSchema)
  | Content (content : IMap MediaType)

def parameterRepresentationFields : ParameterRepresentation → List (String × Json)
  | .Simple c => [("schema", encodeCIS c)]
  | .Content m => [("content", encodeIMap encodeMediaType m)]

/-- `ParameterExamples`: untagged single example (an always-emitted
`Option<Value>` field, `null` when unset) or examples map. -/
inductive ParameterExamples where
  | One (ex : Option Json)
  | Multiple (examples : IMap (ObjectOrReference Example))

def parameterExamplesFields : ParameterExamples → List (String × Json)
  | .One o => [("example", match o with | none => .null | some v => v)]
  | .Multiple m => [("examples", encodeIMap (encodeOOR encodeExample) m)]

/-- `Parameter` (`rename_all = "camelCase"`; `location` serializes as
`in`; the representation and examples are flattened options). -/
structure Parameter where
  name : Str
  location : Location
  description : Str
  required : Option Bool
  deprecated : Option Bool
  style : Option ParameterStyle
  explode : Option Bool
  allow_reserved : Option Bool
  representation : Option ParameterRepresentation
  «example» : Option ParameterExamples

def encodeParameter (p : Parameter) : Json :=
  .obj ([("name", .str p.name), ("in", encodeLocation p.location)]
    ++ omitIf p.description.isEmpty "description" (.str p.description)
    ++ optField "required" p.required Json.bool
    ++ optField "deprecated" p.deprecated Json.bool
    ++ optField "style" p.style encodeParameterStyle
    ++ optField "explode" p.explode Json.bool
    ++ optField "allowReserved" p.allow_reserved Json.bool
    ++ (match p.representation with
        | none => [] | some r => parameterRepresentationFields r)
    ++ (match p.«example» with | none => [] | some e => parameterExamplesFields e))

/-- `ImplicitFlow` (`rename_all = "camelCase"`). -/
structure ImplicitFlow where
  authorization_url : Url
  refresh_url : Option Url
  scopes : IMap Str

def encodeImplicitFlow (f : ImplicitFlow) : Json :=
  .obj ([("authorizationUrl", .str f.authorization_url)]
    ++ optField "refreshUrl" f.refresh_url Json.str
    ++ [("scopes", encodeIMap Json.str f.scopes)])

/-- `PasswordFlow`. -/
structure PasswordFlow where
  token_url : Url
  refresh_url : Option Url
  scopes : IMap Str

def encodePasswordFlow (f : PasswordFlow) : Json :=
  .obj ([("tokenUrl", .str f.token_url)]
    ++ optField "refreshUrl" f.refresh_url Json.str
    ++ [("scopes", encodeIMap Json.str f.scopes)])

/-- `ClientCredentialsFlow`. -/
structure ClientCredentialsFlow where
  token_url : Url
  refresh_url : Option Url
  scopes : IMap Str

def encodeClientCredentialsFlow (f : ClientCredentialsFlow) : Json :=
  .obj ([("tokenUrl", .str f.token_url)]
    ++ optField "refreshUrl" f.refresh_url Json.str
    ++ [("scopes", encodeIMap Json.str f.scopes)])

/-- `AuthorizationCodeFlow`. -/
structure AuthorizationCodeFlow where
  authorization_url : Url
  token_url : Url
  refresh_url : Option Url
  scopes : IMap Str

def encodeAuthorizationCodeFlow (f : AuthorizationCodeFlow) : Json :=
  .obj ([("authorizationUrl", .str f.authorization_url),
      ("tokenUrl", .str f.token_url)]
    ++ optField "refreshUrl" f.refresh_url Json.str
    ++ [("scopes", encodeIMap Json.str f.scopes)])

/-- `Flows` (`rename_all = "camelCase"`, every slot optional). -/
structure Flows where
  implicit : Option ImplicitFlow
  password : Option PasswordFlow
  client_credentials : Option ClientCredentialsFlow
  authorization_code : Option AuthorizationCodeFlow

def encodeFlows (f : Flows) : Json :=
  .obj (optField "implicit" f.implicit encodeImplicitFlow
    ++ optField "password" f.password encodePasswordFlow
    ++ optField "clientCredentials" f.client_credentials encodeClientCredentialsFlow
    ++ optField "authorizationCode" f.authorization_code encodeAuthorizationCodeFlow)

/-- `SecurityScheme`: internally tagged (`#[serde(tag = "type")]`) with a
closed variant set. -/
inductive SecurityScheme where
  | ApiKey (name : Str) (location : Str)
  | Http (scheme : Str) (bearer_format : Str)
  | OAuth2 (flows : Flows)
  | OpenIdConnect (open_id_connect_url : Str)

/-- Serialize a `SecurityScheme`: the discriminant field first, then the
variant's payload fields. -/
def encodeSecurityScheme : SecurityScheme → Json
  | .ApiKey name location =>
    .obj [("type", .str "apiKey"), ("name", .str name), ("in", .str location)]
  | .Http scheme bearer_format =>
    .obj [("type", .str "http"), ("scheme", .str scheme),
      ("bearerFormat", .str bearer_format)]
  | .OAuth2 flows => .obj [("type", .str "oauth2"), ("flows", encodeFlows flows)]
  | .OpenIdConnect u =>
    .obj [("type", .str "openIdConnect"), ("openIdConnectUrl", .str u)]

/-- `Callback`: a newtype over an opaque JSON value; serializes as the
inner value. -/
structure Callback where
  val : Json

def encodeCallback (c : Callback) : Json := c.val

/-- `SecurityRequirement = IndexMap<Str, Vec<Str>>`. -/
abbrev SecurityRequirement := IMap (List Str)

def encodeSecurityRequirement (m : SecurityRequirement) : Json :=
  .obj (m.map (fun e => (e.1, .arr (e.2.map Json.str))))

/-- `Tag`. -/
structure Tag where
  name : Str
  description : Str

def encodeTag (t : Tag) : Json :=
  .obj ([("name", .str t.name)]
    ++ omitIf t.description.isEmpty "description" (.str t.description))

/-- `ExternalDoc`. -/
structure ExternalDoc where
  url : Url
  description : Str

def encodeExternalDoc (d : ExternalDoc) : Json :=
  .obj ([("url", .str d.url)]
    ++ omitIf d.description.isEmpty "description" (.str d.description))

/-- `Contact`. -/
structure Contact where
  name : Str
  url : Option Url
  email : Str

def encodeContact (c : Contact) : Json :=
  .obj (omitIf c.name.isEmpty "name" (.str c.name)
    ++ optField "url" c.url Json.str
    ++ omitIf c.email.isEmpty "email" (.str c.email))

/-- `License`. -/
structure License where
  name : Str
  url : Option Url

def encodeLicense (l : License) : Json :=
  .obj ([("name", .str l.name)] ++ optField "url" l.url Json.str)

/-- `Info`. -/
structure Info where
  title : Str
  description : Str
  terms_of_service : Option Url
  version : Str
  contact : Option Contact
  license : Option License

def encodeInfo (i : Info) : Json :=
  .obj ([("title", .str i.title)]
    ++ omitIf i.description.isEmpty "description" (.str i.description)
    ++ optField "termsOfService" i.terms_of_service Json.str
    ++ [("version", .str i.version)]
    ++ optField "contact" i.contact encodeContact
    ++ optField "license" i.license encodeLicense)

/-! ## The component registries (`components.rs`) -/

/-- `BTreeMap<Str, α>`: an association list whose keys are strictly
ascending in the lexicographic order — the ordered-map invariant Rust's
`BTreeMap` maintains. -/
structure BMap (α : Type) where
  entries : List (String × α)
  sorted : entries.Pairwise (fun a b => strLtB a.1 b.1 = true)

/-- `BTreeMap::insert` on the underlying sorted list: an existing key
keeps its key and position and gets the new value; a fresh key lands at
its ordered position. -/
def bmapInsert (k : String) (v : α) : List (String × α) → List (String × α)
  | [] => [(k, v)]
  | (k2, v2) :: rest =>
    if strLtB k k2 then (k, v) :: (k2, v2) :: rest
    else if strLtB k2 k then (k2, v2) :: bmapInsert k v rest
    else (k2, v) :: rest

/-- Serialize a `BTreeMap`: entries in stored (ascending-key) order. -/
def encodeBMap (f : α → Json) (m : BMap α) : Json :=
  .obj (m.entries.map (fun e => (e.1, f e.2)))

/-- `Components`: nine reusable-object registries, each a `BTreeMap`. -/
structure Components where
  schemas : BMap (ObjectOrReference Schema)
  responses : BMap (ObjectOrReference Response)
  parameters : BMap (ObjectOrReference Parameter)
  examples : BMap (ObjectOrReference Example)
  request_bodies : BMap (ObjectOrReference RequestBody)
  headers : BMap (ObjectOrReference Header)
  security_schemes : BMap (ObjectOrReference SecurityScheme)
  links : BMap (ObjectOrReference Link)
  callbacks : BMap (ObjectOrReference Callback)

/-- Serialize `Components` (each registry omitted when empty, serialized
names `requestBodies`/`securitySchemes` per the renames). -/
def encodeComponents (c : Components) : Json :=
  .obj (omitIf c.schemas.entries.isEmpty "schemas"
      (encodeBMap (encodeOOR encodeSchema) c.schemas)
    ++ omitIf c.responses.entries.isEmpty "responses"
      (encodeBMap (encodeOOR encodeResponse) c.responses)
    ++ omitIf c.parameters.entries.isEmpty "parameters"
      (encodeBMap (encodeOOR encodeParameter) c.parameters)
    ++ omitIf c.examples.entries.isEmpty "examples"
      (encodeBMap (encodeOOR encodeExample) c.examples)
    ++ omitIf c.request_bodies.entries.isEmpty "requestBodies"
      (encodeBMap (encodeOOR encodeRequestBody) c.request_bodies)
    ++ omitIf c.headers.entries.isEmpty "headers"
      (encodeBMap (encodeOOR encodeHeader) c.headers)
    ++ omitIf c.security_schemes.entries.isEmpty "securitySchemes"
      (encodeBMap (encodeOOR encodeSecurityScheme) c.security_schemes)
    ++ omitIf c.links.entries.isEmpty "links"
      (encodeBMap (encodeOOR encodeLink) c.links)
    ++ omitIf c.callbacks.entries.isEmpty "callbacks"
      (encodeBMap (encodeOOR encodeCallback) c.callbacks))

/-! ## Paths, operations, and the top-level document -/

/-- `Operation`. -/
structure Operation where
  tags : List Str
  summary : Str
  description : Str
  external_docs : Option ExternalDoc
  operation_id : Str
  parameters : List (ObjectOrReference Parameter)
  request_body : Option (ObjectOrReference RequestBody)
  responses : IMap Response
  callbacks : IMap Callback
  deprecated : Option Bool
  security : List SecurityRequirement
  servers : List Server

def encodeOperation (o : Operation) : Json :=
  .obj (omitIf o.tags.isEmpty "tags" (.arr (o.tags.map Json.str))
    ++ omitIf o.summary.isEmpty "summary" (.str o.summary)
    ++ omitIf o.description.isEmpty "description" (.str o.description)
    ++ optField "externalDocs" o.external_docs encodeExternalDoc
    ++ omitIf o.operation_id.isEmpty "operationId" (.str o.operation_id)
    ++ omitIf o.parameters.isEmpty "parameters"
        (encodeList (encodeOOR encodeParameter) o.parameters)
    ++ optField "requestBody" o.request_body (encodeOOR encodeRequestBody)
    ++ [("responses", encodeIMap encodeResponse o.responses)]
    ++ omitIf o.callbacks.isEmpty "callbacks" (encodeIMap encodeCallback o.callbacks)
    ++ optField "deprecated" o.deprecated Json.bool
    ++ omitIf o.security.isEmpty "security"
        (encodeList encodeSecurityRequirement o.security)
    ++ omitIf o.servers.isEmpty "servers" (encodeList encodeServer o.servers))

/-- `PathItem` (its `reference` field serializes as `$ref`). -/
structure PathItem where
  reference : Str
  summary : Str
  description : Str
  get : Option Operation
  put : Option Operation
  post : Option Operation
  delete : Option Operation
  options : Option Operation
  head : Option Operation
  patch : Option Operation
  trace : Option Operation
  servers : List Server
  parameters : List (ObjectOrReference Parameter)

def encodePathItem (p : PathItem) : Json :=
  .obj (omitIf p.reference.isEmpty "$ref" (.str p.reference)
    ++ omitIf p.summary.isEmpty "summary" (.str p.summary)
    ++ omitIf p.description.isEmpty "description" (.str p.description)
    ++ optField "get" p.get encodeOperation
    ++ optField "put" p.put encodeOperation
    ++ optField "post" p.post encodeOperation
    ++ optField "delete" p.delete encodeOperation
    ++ optField "options" p.options encodeOperation
    ++ optField "head" p.head encodeOperation
    ++ optField "patch" p.patch encodeOperation
    ++ optField "trace" p.trace encodeOperation
    ++ omitIf p.servers.isEmpty "servers" (encodeList encodeServer p.servers)
    ++ omitIf p.parameters.isEmpty "parameters"
        (encodeList (encodeOOR encodeParameter) p.parameters))

/-- `Spec`: the top-level document. -/
structure Spec where
  openapi : Str
  info : Info
  servers : List Server
  paths : IMap PathItem
  components : Option Components
  security : List SecurityRequirement
  tags : List Tag
  external_docs : Option ExternalDoc

/-- Serialize a `Spec`.  Total by construction: every structure above
has a defined textual shape and no serializer can fail. -/
def encodeSpec (s : Spec) : Json :=
  .obj ([("openapi", .str s.openapi), ("info", encodeInfo s.info)]
    ++ omitIf s.servers.isEmpty "servers" (encodeList encodeServer s.servers)
    ++ [("paths", encodeIMap encodePathItem s.paths)]
    ++ optField "components" s.components encodeComponents
    ++ omitIf s.security.isEmpty "security"
        (encodeList encodeSecurityRequirement s.security)
    ++ omitIf s.tags.isEmpty "tags" (encodeList encodeTag s.tags)
    ++ optField "externalDocs" s.external_docs encodeExternalDoc)

/-! ## Decoders for the untagged and tag-dispatched unions -/

/-- Deserialize an `ExampleValue` (untagged, `Embedded` first): a keyed
structure with a usable `value` field is `Embedded` (any JSON value
qualifies, other keys are ignored); otherwise a usable string
`externalValue` field is `External`; otherwise no variant matched. -/
def decodeExampleValue (j : Json) : Except DErr ExampleValue :=
  match j with
  | .obj kvs =>
    match getField kvs "value" with
    | .ok (some v) => .ok (.Embedded v)
    | _ =>
      match getField kvs "externalValue" with
      | .ok (some (.str s)) => .ok (.External s)
      | _ => .error (.noVariantMatched "ExampleValue")
  | _ => .error (.noVariantMatched "ExampleValue")

/-- Optional struct-valued field, given the payload decoder. -/
def optStructF (d : Json → Except DErr α) (kvs : List (String × Json))
    (name : String) : Except DErr (Option α) := do
  match ← getField kvs name with
  | none => pure none
  | some jv => pure (some (← d jv))

/-- Deserialize an `ImplicitFlow`. -/
def decodeImplicitFlow (j : Json) : Except DErr ImplicitFlow :=
  match j with
  | .obj kvs => do
    let au ← reqStr kvs "authorizationUrl"
    let ru ← optStr kvs "refreshUrl"
    let sc ← reqStrMap kvs "scopes"
    pure ⟨au, ru, sc⟩
  | _ => .error (.typeMismatch "ImplicitFlow")

/-- Deserialize a `PasswordFlow`. -/
def decodePasswordFlow (j : Json) : Except DErr PasswordFlow :=
  match j with
  | .obj kvs => do
    let tu ← reqStr kvs "tokenUrl"
    let ru ← optStr kvs "refreshUrl"
    let sc ← reqStrMap kvs "scopes"
    pure ⟨tu, ru, sc⟩
  | _ => .error (.typeMismatch "PasswordFlow")

/-- Deserialize a `ClientCredentialsFlow`. -/
def decodeClientCredentialsFlow (j : Json) : Except DErr ClientCredentialsFlow :=
  match j with
  | .obj kvs => do
    let tu ← reqStr kvs "tokenUrl"
    let ru ← optStr kvs "refreshUrl"
    let sc ← reqStrMap kvs "scopes"
    pure ⟨tu, ru, sc⟩
  | _ => .error (.typeMismatch "ClientCredentialsFlow")

/-- Deserialize an `AuthorizationCodeFlow`. -/
def decodeAuthorizationCodeFlow (j : Json) : Except DErr AuthorizationCodeFlow :=
  match j with
  | .obj kvs => do
    let au ← reqStr kvs "authorizationUrl"
    let tu ← reqStr kvs "tokenUrl"
    let ru ← optStr kvs "refreshUrl"
    let sc ← reqStrMap kvs "scopes"
    pure ⟨au, tu, ru, sc⟩
  | _ => .error (.typeMismatch "AuthorizationCodeFlow")

/-- Deserialize `Flows`: each of the four slots is an `Option` field,
absent slots decode to `none`. -/
def decodeFlows (j : Json) : Except DErr Flows :=
  match j with
  | .obj kvs => do
    let imp ← optStructF decodeImplicitFlow kvs "implicit"
    let pw ← optStructF decodePasswordFlow kvs "password"
    let cc ← optStructF decodeClientCredentialsFlow kvs "clientCredentials"
    let ac ← optStructF decodeAuthorizationCodeFlow kvs "authorizationCode"
    pure ⟨imp, pw, cc, ac⟩
  | _ => .error (.typeMismatch "Flows")

/-- Deserialize a `SecurityScheme` (`#[serde(tag = "type")]`): read the
required discriminant field first and switch on it; a tag outside the
closed set {apiKey, http, oauth2, openIdConnect} is an unknown-variant
error.  No key-presence probing is involved. -/
def decodeSecurityScheme (j : Json) : Except DErr SecurityScheme :=
  match j with
  | .obj kvs =>
    match getField kvs "type" with
    | .ok (some (.str t)) =>
      if t == "apiKey" then do
        let name ← reqStr kvs "name"
        let loc ← reqStr kvs "in"
        pure (.ApiKey name loc)
      else if t == "http" then do
        let sch ← reqStr kvs "scheme"
        let bf ← reqStr kvs "bearerFormat"
        pure (.Http sch bf)
      else if t == "oauth2" then do
        let fl ← (do
          match ← getField kvs "flows" with
          | some fj => decodeFlows fj
          | none => throw (.missingField "flows"))
        pure (.OAuth2 fl)
      else if t == "openIdConnect" then do
        let u ← reqStr kvs "openIdConnectUrl"
        pure (.OpenIdConnect u)
      else .error (.unknownVariant t)
    | .ok (some _) => .error (.typeMismatch "type")
    | .ok none => .error (.missingField "type")
    | .error e => .error e
  | _ => .error (.typeMismatch "SecurityScheme")

/-- Deserialize the entries of a `BTreeMap` registry: each entry's value
through the payload decoder, inserted (`BTreeMap::insert`) in input
order — so the stored order is the sorted key order, not input order. -/
def decodeBMapGo (d : Json → Except DErr α) (acc : List (String × α)) :
    List (String × Json) → Except DErr (List (String × α))
  | [] => pure acc
  | (k, jv) :: rest => do
    let v ← d jv
    decodeBMapGo d (bmapInsert k v acc) rest

/-- Deserialize a `BTreeMap` registry from a keyed structure, producing
the stored (sorted) entry list. -/
def decodeBMapList (d : Json → Except DErr α) (j : Json) :
    Except DErr (List (String × α)) :=
  match j with
  | .obj kvs => decodeBMapGo d [] kvs
  | _ => .error (.typeMismatch "map")

/-! ## Concrete values used by the theorems -/

/-- Keys of an encoded object (empty for non-objects). -/
def objKeys : Json → List String
  | .obj kvs => kvs.map Prod.fst
  | _ => []

/-- Rust `Schema::default()`: every field at its empty value. -/
def defaultSchema : Schema :=
  ⟨"", "", none, [], none, none, none, none, none, "", none, [], [], [], none, [],
    none, none, none, none, none, none, none, none, "", none, none, none, none,
    none, [], []⟩

/-- A small fully-populated schema tree (every omit-when-empty
string/sequence/map field non-empty; `Option` fields unset). -/
def fullSchemaW : Schema :=
  ⟨"d", "f", none, [("p", .Component "Pet")], none, none, none, none, none, "t",
    none, [.Component "A"], [.Component "O"], [.Component "Y"], none, ["e"], none,
    none, none, none, none, none, none, none, "x", none, none, none, none, none,
    ["r"], [("k", ["v"])]⟩

/-- The complete set of required inline `Schema` fields, used to build
inputs whose inline decode succeeds. -/
def inlineFieldSet : List (String × Json) :=
  [("description", .str "d"), ("format", .str "f"), ("properties", .obj []),
   ("title", .str "t"), ("allOf", .arr []), ("oneOf", .arr []), ("anyOf", .arr []),
   ("enum", .arr []), ("pattern", .str "x"), ("required", .arr []),
   ("dependentRequired", .obj [])]

/-- The schema `inlineFieldSet` decodes to. -/
def inlineFieldSchema : Schema :=
  ⟨"d", "f", none, [], none, none, none, none, none, "t", none, [], [], [], none,
    [], none, none, none, none, none, none, none, none, "x", none, none, none,
    none, none, [], []⟩

/-- An input carrying both a complete inline field set and a pointer
field (the tie-break inputs of the claims). -/
def refAndInlineInput : Json :=
  .obj (inlineFieldSet ++ [("$ref", .str "#/components/schemas/Pet")])

/-- The oauth2 security-scheme input whose flows carry only an
implicit-flow payload. -/
def oauthImplicitInput : Json :=
  .obj [("type", .str "oauth2"),
    ("flows", .obj [("implicit", .obj
      [("authorizationUrl", .str "https://example.com/api/oauth/dialog"),
       ("scopes", .obj [("write:pets", .str "modify pets in your account"),
                        ("read:pets", .str "read your pets")])])])]

/-- The value `oauthImplicitInput` decodes to. -/
def oauthImplicitScheme : SecurityScheme :=
  .OAuth2 ⟨some ⟨"https://example.com/api/oauth/dialog", none,
    [("write:pets", "modify pets in your account"), ("read:pets", "read your pets")]⟩,
    none, none, none⟩

/-- A registry input whose keys are in descending declaration order. -/
def unsortedRegistryInput : Json :=
  .obj [("b", .obj [("$ref", .str "#/components/schemas/B")]),
        ("a", .obj [("$ref", .str "#/components/schemas/A")])]

/-! # Theorems

Helper lemmas first, then the claim theorems. -/

set_option maxHeartbeats 1000000

@[simp] theorem ebind_ok (a : α) (f : α → Except DErr β) : (Except.ok a >>= f) = f a := rfl

@[simp] theorem ebind_err (e : DErr) (f : α → Except DErr β) :
    ((Except.error e : Except DErr α) >>= f) = Except.error e := rfl

@[simp] theorem epure (a : α) : (pure a : Except DErr α) = Except.ok a := rfl

@[simp] theorem omitIf_true (k : String) (v : Json) : omitIf true k v = [] := rfl

@[simp] theorem omitIf_false (k : String) (v : Json) : omitIf false k v = [(k, v)] := rfl

@[simp] theorem optField_none (k : String) (f : α → Json) : optField k none f = [] := rfl

@[simp] theorem optField_some (k : String) (a : α) (f : α → Json) :
    optField k (some a) f = [(k, f a)] := rfl

@[simp] theorem filterKey_omitIf_ne {b : Bool} {k v name} (h : (k == name) = false) :
    (omitIf b k v).filter (fun e => e.1 == name) = [] := by
  cases b <;> simp [omitIf, h]

@[simp] theorem filterKey_optField_ne {k name : String} {o : Option α} {f}
    (h : (k == name) = false) :
    (optField k o f).filter (fun e => e.1 == name) = [] := by
  cases o <;> simp [optField, h]

@[simp] theorem filterKey_omitIf_self {b : Bool} {k v} :
    (omitIf b k v).filter (fun e => e.1 == k) = omitIf b k v := by
  cases b <;> simp [omitIf]

@[simp] theorem filterKey_optField_self {k : String} {o : Option α} {f} :
    (optField k o f).filter (fun e => e.1 == k) = optField k o f := by
  cases o <;> simp [optField]

/-- `schemaFields` in chunk-combinator form (the two raw matches are the
`optField` combinator definitionally). -/
theorem schemaFields_eq (s : Schema) : schemaFields s =
    omitIf s.description.isEmpty "description" (.str s.description)
    ++ omitIf s.format.isEmpty "format" (.str s.format)
    ++ optField "items" s.items encodeCIS
    ++ omitIf s.properties.isEmpty "properties" (.obj (encodeProps s.properties))
    ++ optField "readOnly" s.read_only Json.bool
    ++ optField "writeOnly" s.write_only Json.bool
    ++ optField "nullable" s.nullable Json.bool
    ++ optField "additionalProperties" s.additional_properties encodeCIS
    ++ optField "example" s.«example» id
    ++ omitIf s.title.isEmpty "title" (.str s.title)
    ++ optField "default" s.default id
    ++ omitIf s.all_of.isEmpty "allOf" (.arr (encodeCISList s.all_of))
    ++ omitIf s.one_of.isEmpty "oneOf" (.arr (encodeCISList s.one_of))
    ++ omitIf s.any_of.isEmpty "anyOf" (.arr (encodeCISList s.any_of))
    ++ optField "type" s.schema_type encodeSType
    ++ omitIf s.enum_values.isEmpty "enum" (.arr (s.enum_values.map Json.str))
    ++ optField "const" s.const_value id
    ++ optField "multipleOf" s.multiple_of id
    ++ optField "minimum" s.minimum id
    ++ optField "exclusiveMinimum" s.exclusive_minimum id
    ++ optField "maximum" s.maximum id
    ++ optField "exclusiveMaximum" s.exclusive_maximum id
    ++ optField "maxLength" s.max_length (fun m => .num (Int.ofNat m))
    ++ optField "minLength" s.min_length (fun m => .num (Int.ofNat m))
    ++ omitIf s.pattern.isEmpty "pattern" (.str s.pattern)
    ++ optField "maxItems" s.max_items (fun m => .num (Int.ofNat m))
    ++ optField "minItems" s.min_items (fun m => .num (Int.ofNat m))
    ++ optField "uniqueItems" s.unique_items Json.bool
    ++ optField "maxProperties" s.max_properties (fun m => .num (Int.ofNat m))
    ++ optField "minProperties" s.min_properties (fun m => .num (Int.ofNat m))
    ++ omitIf s.required.isEmpty "required" (.arr (s.required.map Json.str))
    ++ omitIf s.dependent_required.isEmpty "dependentRequired" (.obj (encodeDepReq s.dependent_required)) := by
  rcases s with ⟨de, fo, it, pr, ro, wo, nu, ap, ex, ti, df, ao, oo, ay, st, ev, cv,
    mo, mn, emn, mx, emx, mal, mil, pa, mai, mii, ui, mpr, mipr, rq, dr⟩
  cases it <;> cases ap <;> rfl

/-- No chunk of a serialized schema carries the `$ref` key. -/
theorem filter_sf_ref (s : Schema) :
    (schemaFields s).filter (fun e => e.1 == "$ref") = [] := by
  rw [schemaFields_eq]
  simp [List.filter_append]

theorem filter_sf_description (s : Schema) :
    (schemaFields s).filter (fun e => e.1 == "description") = omitIf s.description.isEmpty "description" (.str s.description) := by
  rw [schemaFields_eq]
  simp [List.filter_append]

theorem filter_sf_format (s : Schema) :
    (schemaFields s).filter (fun e => e.1 == "format") = omitIf s.format.isEmpty "format" (.str s.format) := by
  rw [schemaFields_eq]
  simp [List.filter_append]

theorem filter_sf_items (s : Schema) :
    (schemaFields s).filter (fun e => e.1 == "items") = optField "items" s.items encodeCIS := by
  rw [schemaFields_eq]
  simp [List.filter_append]

theorem filter_sf_properties (s : Schema) :
    (schemaFields s).filter (fun e => e.1 == "properties") = omitIf s.properties.isEmpty "properties" (.obj (encodeProps s.properties)) := by
  rw [schemaFields_eq]
  simp [List.filter_append]

theorem filter_sf_readOnly (s : Schema) :
    (schemaFields s).filter (fun e => e.1 == "readOnly") = optField "readOnly" s.read_only Json.bool := by
  rw [schemaFields_eq]
  simp [List.filter_append]

theorem filter_sf_writeOnly (s : Schema) :
    (schemaFields s).filter (fun e => e.1 == "writeOnly") = optField "writeOnly" s.write_only Json.bool := by
  rw [schemaFields_eq]
  simp [List.filter_append]

theorem filter_sf_nullable (s : Schema) :
    (schemaFields s).filter (fun e => e.1 == "nullable") = optField "nullable" s.nullable Json.bool := by
  rw [schemaFields_eq]
  simp [List.filter_append]

theorem filter_sf_additionalProperties (s : Schema) :
    (schemaFields s).filter (fun e => e.1 == "additionalProperties") = optField "additionalProperties" s.additional_properties encodeCIS := by
  rw [schemaFields_eq]
  simp [List.filter_append]

theorem filter_sf_example (s : Schema) :
    (schemaFields s).filter (fun e => e.1 == "example") = optField "example" s.«example» id := by
  rw [schemaFields_eq]
  simp [List.filter_append]

theorem filter_sf_title (s : Schema) :
    (schemaFields s).filter (fun e => e.1 == "title") = omitIf s.title.isEmpty "title" (.str s.title) := by
  rw [schemaFields_eq]
  simp [List.filter_append]

theorem filter_sf_default (s : Schema) :
    (schemaFields s).filter (fun e => e.1 == "default") = optField "default" s.default id := by
  rw [schemaFields_eq]
  simp [List.filter_append]

theorem filter_sf_allOf (s : Schema) :
    (schemaFields s).filter (fun e => e.1 == "allOf") = omitIf s.all_of.isEmpty "allOf" (.arr (encodeCISList s.all_of)) := by
  rw [schemaFields_eq]
  simp [List.filter_append]

theorem filter_sf_oneOf (s : Schema) :
    (schemaFields s).filter (fun e => e.1 == "oneOf") = omitIf s.one_of.isEmpty "oneOf" (.arr (encodeCISList s.one_of)) := by
  rw [schemaFields_eq]
  simp [List.filter_append]

theorem filter_sf_anyOf (s : Schema) :
    (schemaFields s).filter (fun e => e.1 == "anyOf") = omitIf s.any_of.isEmpty "anyOf" (.arr (encodeCISList s.any_of)) := by
  rw [schemaFields_eq]
  simp [List.filter_append]

theorem filter_sf_type (s : Schema) :
    (schemaFields s).filter (fun e => e.1 == "type") = optField "type" s.schema_type encodeSType := by
  rw [schemaFields_eq]
  simp [List.filter_append]

theorem filter_sf_enum (s : Schema) :
    (schemaFields s).filter (fun e => e.1 == "enum") = omitIf s.enum_values.isEmpty "enum" (.arr (s.enum_values.map Json.str)) := by
  rw [schemaFields_eq]
  simp [List.filter_append]

theorem filter_sf_const (s : Schema) :
    (schemaFields s).filter (fun e => e.1 == "const") = optField "const" s.const_value id := by
  rw [schemaFields_eq]
  simp [List.filter_append]

theorem filter_sf_multipleOf (s : Schema) :
    (schemaFields s).filter (fun e => e.1 == "multipleOf") = optField "multipleOf" s.multiple_of id := by
  rw [schemaFields_eq]
  simp [List.filter_append]

theorem filter_sf_minimum (s : Schema) :
    (schemaFields s).filter (fun e => e.1 == "minimum") = optField "minimum" s.minimum id := by
  rw [schemaFields_eq]
  simp [List.filter_append]

theorem filter_sf_exclusiveMinimum (s : Schema) :
    (schemaFields s).filter (fun e => e.1 == "exclusiveMinimum") = optField "exclusiveMinimum" s.exclusive_minimum id := by
  rw [schemaFields_eq]
  simp [List.filter_append]

theorem filter_sf_maximum (s : Schema) :
    (schemaFields s).filter (fun e => e.1 == "maximum") = optField "maximum" s.maximum id := by
  rw [schemaFields_eq]
  simp [List.filter_append]

theorem filter_sf_exclusiveMaximum (s : Schema) :
    (schemaFields s).filter (fun e => e.1 == "exclusiveMaximum") = optField "exclusiveMaximum" s.exclusive_maximum id := by
  rw [schemaFields_eq]
  simp [List.filter_append]

theorem filter_sf_maxLength (s : Schema) :
    (schemaFields s).filter (fun e => e.1 == "maxLength") = optField "maxLength" s.max_length (fun m => .num (Int.ofNat m)) := by
  rw [schemaFields_eq]
  simp [List.filter_append]

theorem filter_sf_minLength (s : Schema) :
    (schemaFields s).filter (fun e => e.1 == "minLength") = optField "minLength" s.min_length (fun m => .num (Int.ofNat m)) := by
  rw [schemaFields_eq]
  simp [List.filter_append]

theorem filter_sf_pattern (s : Schema) :
    (schemaFields s).filter (fun e => e.1 == "pattern") = omitIf s.pattern.isEmpty "pattern" (.str s.pattern) := by
  rw [schemaFields_eq]
  simp [List.filter_append]

theorem filter_sf_maxItems (s : Schema) :
    (schemaFields s).filter (fun e => e.1 == "maxItems") = optField "maxItems" s.max_items (fun m => .num (Int.ofNat m)) := by
  rw [schemaFields_eq]
  simp [List.filter_append]

theorem filter_sf_minItems (s : Schema) :
    (schemaFields s).filter (fun e => e.1 == "minItems") = optField "minItems" s.min_items (fun m => .num (Int.ofNat m)) := by
  rw [schemaFields_eq]
  simp [List.filter_append]

theorem filter_sf_uniqueItems (s : Schema) :
    (schemaFields s).filter (fun e => e.1 == "uniqueItems") = optField "uniqueItems" s.unique_items Json.bool := by
  rw [schemaFields_eq]
  simp [List.filter_append]

theorem filter_sf_maxProperties (s : Schema) :
    (schemaFields s).filter (fun e => e.1 == "maxProperties") = optField "maxProperties" s.max_properties (fun m => .num (Int.ofNat m)) := by
  rw [schemaFields_eq]
  simp [List.filter_append]

theorem filter_sf_minProperties (s : Schema) :
    (schemaFields s).filter (fun e => e.1 == "minProperties") = optField "minProperties" s.min_properties (fun m => .num (Int.ofNat m)) := by
  rw [schemaFields_eq]
  simp [List.filter_append]

theorem filter_sf_required (s : Schema) :
    (schemaFields s).filter (fun e => e.1 == "required") = omitIf s.required.isEmpty "required" (.arr (s.required.map Json.str)) := by
  rw [schemaFields_eq]
  simp [List.filter_append]

theorem filter_sf_dependentRequired (s : Schema) :
    (schemaFields s).filter (fun e => e.1 == "dependentRequired") = omitIf s.dependent_required.isEmpty "dependentRequired" (.obj (encodeDepReq s.dependent_required)) := by
  rw [schemaFields_eq]
  simp [List.filter_append]

/-! ## Decode-step lemmas -/

theorem getField_omitIf {kvs : List (String × Json)} {k : String} {b v}
    (h : kvs.filter (fun e => e.1 == k) = omitIf b k v) :
    getField kvs k = .ok (if b then none else some v) := by
  cases b
  · simp only [omitIf_false] at h
    simp [getField, h]
  · simp only [omitIf_true] at h
    simp [getField, h]

theorem getField_optField {kvs : List (String × Json)} {k : String} {o : Option α} {f}
    (h : kvs.filter (fun e => e.1 == k) = optField k o f) :
    getField kvs k = .ok (o.map f) := by
  cases o
  · simp only [optField_none] at h
    simp [getField, h]
  · simp only [optField_some] at h
    simp [getField, h]

theorem getField_of_filter_nil {kvs : List (String × Json)} {k : String}
    (h : kvs.filter (fun e => e.1 == k) = []) : getField kvs k = .ok none := by
  simp [getField, h]

theorem reqStr_eq {kvs k v} (h : getField kvs k = .ok (some (.str v))) :
    reqStr kvs k = .ok v := by
  simp [reqStr, h]

theorem optBool_eq {kvs k} {o : Option Bool}
    (h : getField kvs k = .ok (o.map Json.bool)) : optBool kvs k = .ok o := by
  cases o <;> simp_all [optBool]

theorem optVal_eq {kvs k} {o : Option Json} (h : getField kvs k = .ok o) :
    optVal kvs k = .ok o := by
  cases o <;> simp_all [optVal]

theorem optUsize_eq {kvs k} {o : Option Nat}
    (h : getField kvs k = .ok (o.map (fun m => Json.num (Int.ofNat m)))) :
    optUsize kvs k = .ok o := by
  cases o <;> simp_all [optUsize]

theorem optSType_eq {kvs k} {o : Option SType}
    (h : getField kvs k = .ok (o.map encodeSType)) : optSType kvs k = .ok o := by
  rcases o with _ | ty
  · simp_all [optSType]
  · cases ty <;> simp_all [optSType, encodeSType, parseSType]

theorem decodeStrList_map (xs : List Str) :
    decodeStrList (xs.map Json.str) = .ok xs := by
  induction xs with
  | nil => rfl
  | cons x tl ih => simp [decodeStrList, ih]

theorem reqStrList_eq {kvs k} {xs : List Str}
    (h : getField kvs k = .ok (some (.arr (xs.map Json.str)))) :
    reqStrList kvs k = .ok xs := by
  simp [reqStrList, h, decodeStrList_map]

theorem getField_sf_ref (s : Schema) : getField (schemaFields s) "$ref" = .ok none :=
  getField_of_filter_nil (filter_sf_ref s)

/-- `IndexMap::insert` of a fresh key appends. -/
theorem imapInsert_append {k : String} {v : α} {m : IMap α}
    (h : m.any (fun e => e.1 == k) = false) : imapInsert k v m = m ++ [(k, v)] := by
  simp [imapInsert, h]

theorem keysUnique_cons {k : String} {v : α} {tl : List (String × α)}
    (h : keysUnique ((k, v) :: tl) = true) :
    tl.any (fun e => e.1 == k) = false ∧ keysUnique tl = true := by
  simpa [keysUnique, Bool.and_eq_true, Bool.not_eq_true'] using h

/-- Decoding the serialized `dependent_required` map re-inserts its
entries in order: with duplicate-free keys it reproduces the map after
the accumulator. -/
theorem decodeDepReqGo_append :
    ∀ (dr : IMap (List Str)) (acc : IMap (List Str)), keysUnique dr = true →
      (∀ e ∈ dr, acc.any (fun e2 => e2.1 == e.1) = false) →
      decodeDepReqGo acc (encodeDepReq dr) = .ok (acc ++ dr) := by
  intro dr
  induction dr with
  | nil => intro acc _ _; simp [encodeDepReq, decodeDepReqGo]
  | cons hd tl ih =>
    intro acc hu hdis
    obtain ⟨k, vs⟩ := hd
    obtain ⟨hk, hu'⟩ := keysUnique_cons hu
    have hfresh : acc.any (fun e2 => e2.1 == k) = false :=
      hdis (k, vs) (List.mem_cons_self _ _)
    rw [show encodeDepReq ((k, vs) :: tl) = (k, Json.arr (vs.map Json.str)) :: encodeDepReq tl
      from rfl]
    simp only [decodeDepReqGo, decodeStrList_map, ebind_ok]
    rw [imapInsert_append hfresh]
    rw [ih (acc ++ [(k, vs)]) hu']
    · simp
    · intro e he
      have h1 : acc.any (fun e2 => e2.1 == e.1) = false :=
        hdis e (List.mem_cons_of_mem _ he)
      have h2 : (e.1 == k) = false := by
        have := List.any_eq_false.mp hk e he
        simpa using this
      have h2' : (k == e.1) = false := by
        rw [beq_eq_false_iff_ne] at h2 ⊢
        exact h2.symm
      simp [List.any_append, h1, h2']

/-- `str::strip_prefix` recovers the remainder of an appended string. -/
theorem stripStart_append (p s : String) : stripStart p (p ++ s) = some s := by
  unfold stripStart
  rw [String.data_append, List.take_left, List.drop_left, if_pos rfl]

/-- Master round-trip induction: a fully-populated schema tree decodes
back from its encoding, at every level of the recursive family. -/
theorem roundtripAux : ∀ n : Nat,
    (∀ s : Schema, schemaFull n s = true → decodeSchema n (encodeSchema s) = .ok s) ∧
    (∀ c : ComponentOrInlineSchema, cisFull n c = true →
      decodeCIS n (encodeCIS c) = .ok c) ∧
    (∀ l : List ComponentOrInlineSchema, cisListFull n l = true →
      decodeCISList n (encodeCISList l) = .ok l) ∧
    (∀ (l : List (String × ComponentOrInlineSchema)) acc, propsFull n l = true →
      keysUnique l = true → (∀ e ∈ l, acc.any (fun e2 => e2.1 == e.1) = false) →
      decodePropsGo n acc (encodeProps l) = .ok (acc ++ l)) := by
  intro n
  induction n with
  | zero =>
    refine ⟨?_, ?_, ?_, ?_⟩
    · intro s hs
      simp [schemaFull] at hs
    · intro c hc
      simp [cisFull] at hc
    · intro l hl
      cases l with
      | nil => rfl
      | cons c tl => simp [cisListFull] at hl
    · intro l acc hl hu hdis
      cases l with
      | nil => simp [encodeProps, decodePropsGo]
      | cons e tl => simp [propsFull] at hl
  | succ n ih =>
    obtain ⟨ih1, ih2, ih3, ih4⟩ := ih
    refine ⟨?_, ?_, ?_, ?_⟩
    · intro s hf
      obtain ⟨de, fo, it, pr, ro, wo, nu, ap, ex, ti, df, ao, oo, ay, st, ev, cv, mo,
        mn, emn, mx, emx, mal, mil, pa, mai, mii, ui, mpr, mipr, rq, dr⟩ := s
      simp only [schemaFull, Bool.and_eq_true, and_assoc, Bool.not_eq_true'] at hf
      obtain ⟨hde, hfo, hfit, hprne, hpru, hprf, hfap, hti, haone, haof, hoone, hoof,
        hayne, hayf, hev, hpa, hrq, hdrne, hdru⟩ := hf
      have h01 : reqStr (schemaFields ⟨de, fo, it, pr, ro, wo, nu, ap, ex, ti, df, ao, oo, ay, st, ev, cv, mo, mn, emn, mx, emx, mal, mil, pa, mai, mii, ui, mpr, mipr, rq, dr⟩) "description" = .ok de := by
        apply reqStr_eq
        rw [getField_omitIf (filter_sf_description ⟨de, fo, it, pr, ro, wo, nu, ap, ex, ti, df, ao, oo, ay, st, ev, cv, mo, mn, emn, mx, emx, mal, mil, pa, mai, mii, ui, mpr, mipr, rq, dr⟩)]
        simp [hde]
      have h02 : reqStr (schemaFields ⟨de, fo, it, pr, ro, wo, nu, ap, ex, ti, df, ao, oo, ay, st, ev, cv, mo, mn, emn, mx, emx, mal, mil, pa, mai, mii, ui, mpr, mipr, rq, dr⟩) "format" = .ok fo := by
        apply reqStr_eq
        rw [getField_omitIf (filter_sf_format ⟨de, fo, it, pr, ro, wo, nu, ap, ex, ti, df, ao, oo, ay, st, ev, cv, mo, mn, emn, mx, emx, mal, mil, pa, mai, mii, ui, mpr, mipr, rq, dr⟩)]
        simp [hfo]
      have g03 : getField (schemaFields ⟨de, fo, it, pr, ro, wo, nu, ap, ex, ti, df, ao, oo, ay, st, ev, cv, mo, mn, emn, mx, emx, mal, mil, pa, mai, mii, ui, mpr, mipr, rq, dr⟩) "items" = .ok (it.map encodeCIS) :=
        getField_optField (filter_sf_items ⟨de, fo, it, pr, ro, wo, nu, ap, ex, ti, df, ao, oo, ay, st, ev, cv, mo, mn, emn, mx, emx, mal, mil, pa, mai, mii, ui, mpr, mipr, rq, dr⟩)
      have g04 : getField (schemaFields ⟨de, fo, it, pr, ro, wo, nu, ap, ex, ti, df, ao, oo, ay, st, ev, cv, mo, mn, emn, mx, emx, mal, mil, pa, mai, mii, ui, mpr, mipr, rq, dr⟩) "properties" = .ok (some (.obj (encodeProps pr))) := by
        rw [getField_omitIf (filter_sf_properties ⟨de, fo, it, pr, ro, wo, nu, ap, ex, ti, df, ao, oo, ay, st, ev, cv, mo, mn, emn, mx, emx, mal, mil, pa, mai, mii, ui, mpr, mipr, rq, dr⟩)]
        simp [hprne]
      have h04 : decodePropsGo n [] (encodeProps pr) = .ok pr := by
        have h := ih4 pr [] hprf hpru (by intro e he; rfl)
        simpa using h
      have h05 : optBool (schemaFields ⟨de, fo, it, pr, ro, wo, nu, ap, ex, ti, df, ao, oo, ay, st, ev, cv, mo, mn, emn, mx, emx, mal, mil, pa, mai, mii, ui, mpr, mipr, rq, dr⟩) "readOnly" = .ok ro :=
        optBool_eq (getField_optField (filter_sf_readOnly ⟨de, fo, it, pr, ro, wo, nu, ap, ex, ti, df, ao, oo, ay, st, ev, cv, mo, mn, emn, mx, emx, mal, mil, pa, mai, mii, ui, mpr, mipr, rq, dr⟩))
      have h06 : optBool (schemaFields ⟨de, fo, it, pr, ro, wo, nu, ap, ex, ti, df, ao, oo, ay, st, ev, cv, mo, mn, emn, mx, emx, mal, mil, pa, mai, mii, ui, mpr, mipr, rq, dr⟩) "writeOnly" = .ok wo :=
        optBool_eq (getField_optField (filter_sf_writeOnly ⟨de, fo, it, pr, ro, wo, nu, ap, ex, ti, df, ao, oo, ay, st, ev, cv, mo, mn, emn, mx, emx, mal, mil, pa, mai, mii, ui, mpr, mipr, rq, dr⟩))
      have h07 : optBool (schemaFields ⟨de, fo, it, pr, ro, wo, nu, ap, ex, ti, df, ao, oo, ay, st, ev, cv, mo, mn, emn, mx, emx, mal, mil, pa, mai, mii, ui, mpr, mipr, rq, dr⟩) "nullable" = .ok nu :=
        optBool_eq (getField_optField (filter_sf_nullable ⟨de, fo, it, pr, ro, wo, nu, ap, ex, ti, df, ao, oo, ay, st, ev, cv, mo, mn, emn, mx, emx, mal, mil, pa, mai, mii, ui, mpr, mipr, rq, dr⟩))
      have g08 : getField (schemaFields ⟨de, fo, it, pr, ro, wo, nu, ap, ex, ti, df, ao, oo, ay, st, ev, cv, mo, mn, emn, mx, emx, mal, mil, pa, mai, mii, ui, mpr, mipr, rq, dr⟩) "additionalProperties" = .ok (ap.map encodeCIS) :=
        getField_optField (filter_sf_additionalProperties ⟨de, fo, it, pr, ro, wo, nu, ap, ex, ti, df, ao, oo, ay, st, ev, cv, mo, mn, emn, mx, emx, mal, mil, pa, mai, mii, ui, mpr, mipr, rq, dr⟩)
      have h09 : optVal (schemaFields ⟨de, fo, it, pr, ro, wo, nu, ap, ex, ti, df, ao, oo, ay, st, ev, cv, mo, mn, emn, mx, emx, mal, mil, pa, mai, mii, ui, mpr, mipr, rq, dr⟩) "example" = .ok ex :=
        optVal_eq (by simpa using getField_optField (filter_sf_example ⟨de, fo, it, pr, ro, wo, nu, ap, ex, ti, df, ao, oo, ay, st, ev, cv, mo, mn, emn, mx, emx, mal, mil, pa, mai, mii, ui, mpr, mipr, rq, dr⟩))
      have h10 : reqStr (schemaFields ⟨de, fo, it, pr, ro, wo, nu, ap, ex, ti, df, ao, oo, ay, st, ev, cv, mo, mn, emn, mx, emx, mal, mil, pa, mai, mii, ui, mpr, mipr, rq, dr⟩) "title" = .ok ti := by
        apply reqStr_eq
        rw [getField_omitIf (filter_sf_title ⟨de, fo, it, pr, ro, wo, nu, ap, ex, ti, df, ao, oo, ay, st, ev, cv, mo, mn, emn, mx, emx, mal, mil, pa, mai, mii, ui, mpr, mipr, rq, dr⟩)]
        simp [hti]
      have h11 : optVal (schemaFields ⟨de, fo, it, pr, ro, wo, nu, ap, ex, ti, df, ao, oo, ay, st, ev, cv, mo, mn, emn, mx, emx, mal, mil, pa, mai, mii, ui, mpr, mipr, rq, dr⟩) "default" = .ok df :=
        optVal_eq (by simpa using getField_optField (filter_sf_default ⟨de, fo, it, pr, ro, wo, nu, ap, ex, ti, df, ao, oo, ay, st, ev, cv, mo, mn, emn, mx, emx, mal, mil, pa, mai, mii, ui, mpr, mipr, rq, dr⟩))
      have g12 : getField (schemaFields ⟨de, fo, it, pr, ro, wo, nu, ap, ex, ti, df, ao, oo, ay, st, ev, cv, mo, mn, emn, mx, emx, mal, mil, pa, mai, mii, ui, mpr, mipr, rq, dr⟩) "allOf" = .ok (some (.arr (encodeCISList ao))) := by
        rw [getField_omitIf (filter_sf_allOf ⟨de, fo, it, pr, ro, wo, nu, ap, ex, ti, df, ao, oo, ay, st, ev, cv, mo, mn, emn, mx, emx, mal, mil, pa, mai, mii, ui, mpr, mipr, rq, dr⟩)]
        simp [haone]
      have h12 : decodeCISList n (encodeCISList ao) = .ok ao :=
        ih3 ao haof
      have g13 : getField (schemaFields ⟨de, fo, it, pr, ro, wo, nu, ap, ex, ti, df, ao, oo, ay, st, ev, cv, mo, mn, emn, mx, emx, mal, mil, pa, mai, mii, ui, mpr, mipr, rq, dr⟩) "oneOf" = .ok (some (.arr (encodeCISList oo))) := by
        rw [getField_omitIf (filter_sf_oneOf ⟨de, fo, it, pr, ro, wo, nu, ap, ex, ti, df, ao, oo, ay, st, ev, cv, mo, mn, emn, mx, emx, mal, mil, pa, mai, mii, ui, mpr, mipr, rq, dr⟩)]
        simp [hoone]
      have h13 : decodeCISList n (encodeCISList oo) = .ok oo :=
        ih3 oo hoof
      have g14 : getField (schemaFields ⟨de, fo, it, pr, ro, wo, nu, ap, ex, ti, df, ao, oo, ay, st, ev, cv, mo, mn, emn, mx, emx, mal, mil, pa, mai, mii, ui, mpr, mipr, rq, dr⟩) "anyOf" = .ok (some (.arr (encodeCISList ay))) := by
        rw [getField_omitIf (filter_sf_anyOf ⟨de, fo, it, pr, ro, wo, nu, ap, ex, ti, df, ao, oo, ay, st, ev, cv, mo, mn, emn, mx, emx, mal, mil, pa, mai, mii, ui, mpr, mipr, rq, dr⟩)]
        simp [hayne]
      have h14 : decodeCISList n (encodeCISList ay) = .ok ay :=
        ih3 ay hayf
      have h15 : optSType (schemaFields ⟨de, fo, it, pr, ro, wo, nu, ap, ex, ti, df, ao, oo, ay, st, ev, cv, mo, mn, emn, mx, emx, mal, mil, pa, mai, mii, ui, mpr, mipr, rq, dr⟩) "type" = .ok st :=
        optSType_eq (getField_optField (filter_sf_type ⟨de, fo, it, pr, ro, wo, nu, ap, ex, ti, df, ao, oo, ay, st, ev, cv, mo, mn, emn, mx, emx, mal, mil, pa, mai, mii, ui, mpr, mipr, rq, dr⟩))
      have h16 : reqStrList (schemaFields ⟨de, fo, it, pr, ro, wo, nu, ap, ex, ti, df, ao, oo, ay, st, ev, cv, mo, mn, emn, mx, emx, mal, mil, pa, mai, mii, ui, mpr, mipr, rq, dr⟩) "enum" = .ok ev := by
        apply reqStrList_eq
        rw [getField_omitIf (filter_sf_enum ⟨de, fo, it, pr, ro, wo, nu, ap, ex, ti, df, ao, oo, ay, st, ev, cv, mo, mn, emn, mx, emx, mal, mil, pa, mai, mii, ui, mpr, mipr, rq, dr⟩)]
        simp [hev]
      have h17 : optVal (schemaFields ⟨de, fo, it, pr, ro, wo, nu, ap, ex, ti, df, ao, oo, ay, st, ev, cv, mo, mn, emn, mx, emx, mal, mil, pa, mai, mii, ui, mpr, mipr, rq, dr⟩) "const" = .ok cv :=
        optVal_eq (by simpa using getField_optField (filter_sf_const ⟨de, fo, it, pr, ro, wo, nu, ap, ex, ti, df, ao, oo, ay, st, ev, cv, mo, mn, emn, mx, emx, mal, mil, pa, mai, mii, ui, mpr, mipr, rq, dr⟩))
      have h18 : optVal (schemaFields ⟨de, fo, it, pr, ro, wo, nu, ap, ex, ti, df, ao, oo, ay, st, ev, cv, mo, mn, emn, mx, emx, mal, mil, pa, mai, mii, ui, mpr, mipr, rq, dr⟩) "multipleOf" = .ok mo :=
        optVal_eq (by simpa using getField_optField (filter_sf_multipleOf ⟨de, fo, it, pr, ro, wo, nu, ap, ex, ti, df, ao, oo, ay, st, ev, cv, mo, mn, emn, mx, emx, mal, mil, pa, mai, mii, ui, mpr, mipr, rq, dr⟩))
      have h19 : optVal (schemaFields ⟨de, fo, it, pr, ro, wo, nu, ap, ex, ti, df, ao, oo, ay, st, ev, cv, mo, mn, emn, mx, emx, mal, mil, pa, mai, mii, ui, mpr, mipr, rq, dr⟩) "minimum" = .ok mn :=
        optVal_eq (by simpa using getField_optField (filter_sf_minimum ⟨de, fo, it, pr, ro, wo, nu, ap, ex, ti, df, ao, oo, ay, st, ev, cv, mo, mn, emn, mx, emx, mal, mil, pa, mai, mii, ui, mpr, mipr, rq, dr⟩))
      have h20 : optVal (schemaFields ⟨de, fo, it, pr, ro, wo, nu, ap, ex, ti, df, ao, oo, ay, st, ev, cv, mo, mn, emn, mx, emx, mal, mil, pa, mai, mii, ui, mpr, mipr, rq, dr⟩) "exclusiveMinimum" = .ok emn :=
        optVal_eq (by simpa using getField_optField (filter_sf_exclusiveMinimum ⟨de, fo, it, pr, ro, wo, nu, ap, ex, ti, df, ao, oo, ay, st, ev, cv, mo, mn, emn, mx, emx, mal, mil, pa, mai, mii, ui, mpr, mipr, rq, dr⟩))
      have h21 : optVal (schemaFields ⟨de, fo, it, pr, ro, wo, nu, ap, ex, ti, df, ao, oo, ay, st, ev, cv, mo, mn, emn, mx, emx, mal, mil, pa, mai, mii, ui, mpr, mipr, rq, dr⟩) "maximum" = .ok mx :=
        optVal_eq (by simpa using getField_optField (filter_sf_maximum ⟨de, fo, it, pr, ro, wo, nu, ap, ex, ti, df, ao, oo, ay, st, ev, cv, mo, mn, emn, mx, emx, mal, mil, pa, mai, mii, ui, mpr, mipr, rq, dr⟩))
      have h22 : optVal (schemaFields ⟨de, fo, it, pr, ro, wo, nu, ap, ex, ti, df, ao, oo, ay, st, ev, cv, mo, mn, emn, mx, emx, mal, mil, pa, mai, mii, ui, mpr, mipr, rq, dr⟩) "exclusiveMaximum" = .ok emx :=
        optVal_eq (by simpa using getField_optField (filter_sf_exclusiveMaximum ⟨de, fo, it, pr, ro, wo, nu, ap, ex, ti, df, ao, oo, ay, st, ev, cv, mo, mn, emn, mx, emx, mal, mil, pa, mai, mii, ui, mpr, mipr, rq, dr⟩))
      have h23 : optUsize (schemaFields ⟨de, fo, it, pr, ro, wo, nu, ap, ex, ti, df, ao, oo, ay, st, ev, cv, mo, mn, emn, mx, emx, mal, mil, pa, mai, mii, ui, mpr, mipr, rq, dr⟩) "maxLength" = .ok mal :=
        optUsize_eq (getField_optField (filter_sf_maxLength ⟨de, fo, it, pr, ro, wo, nu, ap, ex, ti, df, ao, oo, ay, st, ev, cv, mo, mn, emn, mx, emx, mal, mil, pa, mai, mii, ui, mpr, mipr, rq, dr⟩))
      have h24 : optUsize (schemaFields ⟨de, fo, it, pr, ro, wo, nu, ap, ex, ti, df, ao, oo, ay, st, ev, cv, mo, mn, emn, mx, emx, mal, mil, pa, mai, mii, ui, mpr, mipr, rq, dr⟩) "minLength" = .ok mil :=
        optUsize_eq (getField_optField (filter_sf_minLength ⟨de, fo, it, pr, ro, wo, nu, ap, ex, ti, df, ao, oo, ay, st, ev, cv, mo, mn, emn, mx, emx, mal, mil, pa, mai, mii, ui, mpr, mipr, rq, dr⟩))
      have h25 : reqStr (schemaFields ⟨de, fo, it, pr, ro, wo, nu, ap, ex, ti, df, ao, oo, ay, st, ev, cv, mo, mn, emn, mx, emx, mal, mil, pa, mai, mii, ui, mpr, mipr, rq, dr⟩) "pattern" = .ok pa := by
        apply reqStr_eq
        rw [getField_omitIf (filter_sf_pattern ⟨de, fo, it, pr, ro, wo, nu, ap, ex, ti, df, ao, oo, ay, st, ev, cv, mo, mn, emn, mx, emx, mal, mil, pa, mai, mii, ui, mpr, mipr, rq, dr⟩)]
        simp [hpa]
      have h26 : optUsize (schemaFields ⟨de, fo, it, pr, ro, wo, nu, ap, ex, ti, df, ao, oo, ay, st, ev, cv, mo, mn, emn, mx, emx, mal, mil, pa, mai, mii, ui, mpr, mipr, rq, dr⟩) "maxItems" = .ok mai :=
        optUsize_eq (getField_optField (filter_sf_maxItems ⟨de, fo, it, pr, ro, wo, nu, ap, ex, ti, df, ao, oo, ay, st, ev, cv, mo, mn, emn, mx, emx, mal, mil, pa, mai, mii, ui, mpr, mipr, rq, dr⟩))
      have h27 : optUsize (schemaFields ⟨de, fo, it, pr, ro, wo, nu, ap, ex, ti, df, ao, oo, ay, st, ev, cv, mo, mn, emn, mx, emx, mal, mil, pa, mai, mii, ui, mpr, mipr, rq, dr⟩) "minItems" = .ok mii :=
        optUsize_eq (getField_optField (filter_sf_minItems ⟨de, fo, it, pr, ro, wo, nu, ap, ex, ti, df, ao, oo, ay, st, ev, cv, mo, mn, emn, mx, emx, mal, mil, pa, mai, mii, ui, mpr, mipr, rq, dr⟩))
      have h28 : optBool (schemaFields ⟨de, fo, it, pr, ro, wo, nu, ap, ex, ti, df, ao, oo, ay, st, ev, cv, mo, mn, emn, mx, emx, mal, mil, pa, mai, mii, ui, mpr, mipr, rq, dr⟩) "uniqueItems" = .ok ui :=
        optBool_eq (getField_optField (filter_sf_uniqueItems ⟨de, fo, it, pr, ro, wo, nu, ap, ex, ti, df, ao, oo, ay, st, ev, cv, mo, mn, emn, mx, emx, mal, mil, pa, mai, mii, ui, mpr, mipr, rq, dr⟩))
      have h29 : optUsize (schemaFields ⟨de, fo, it, pr, ro, wo, nu, ap, ex, ti, df, ao, oo, ay, st, ev, cv, mo, mn, emn, mx, emx, mal, mil, pa, mai, mii, ui, mpr, mipr, rq, dr⟩) "maxProperties" = .ok mpr :=
        optUsize_eq (getField_optField (filter_sf_maxProperties ⟨de, fo, it, pr, ro, wo, nu, ap, ex, ti, df, ao, oo, ay, st, ev, cv, mo, mn, emn, mx, emx, mal, mil, pa, mai, mii, ui, mpr, mipr, rq, dr⟩))
      have h30 : optUsize (schemaFields ⟨de, fo, it, pr, ro, wo, nu, ap, ex, ti, df, ao, oo, ay, st, ev, cv, mo, mn, emn, mx, emx, mal, mil, pa, mai, mii, ui, mpr, mipr, rq, dr⟩) "minProperties" = .ok mipr :=
        optUsize_eq (getField_optField (filter_sf_minProperties ⟨de, fo, it, pr, ro, wo, nu, ap, ex, ti, df, ao, oo, ay, st, ev, cv, mo, mn, emn, mx, emx, mal, mil, pa, mai, mii, ui, mpr, mipr, rq, dr⟩))
      have h31 : reqStrList (schemaFields ⟨de, fo, it, pr, ro, wo, nu, ap, ex, ti, df, ao, oo, ay, st, ev, cv, mo, mn, emn, mx, emx, mal, mil, pa, mai, mii, ui, mpr, mipr, rq, dr⟩) "required" = .ok rq := by
        apply reqStrList_eq
        rw [getField_omitIf (filter_sf_required ⟨de, fo, it, pr, ro, wo, nu, ap, ex, ti, df, ao, oo, ay, st, ev, cv, mo, mn, emn, mx, emx, mal, mil, pa, mai, mii, ui, mpr, mipr, rq, dr⟩)]
        simp [hrq]
      have g32 : getField (schemaFields ⟨de, fo, it, pr, ro, wo, nu, ap, ex, ti, df, ao, oo, ay, st, ev, cv, mo, mn, emn, mx, emx, mal, mil, pa, mai, mii, ui, mpr, mipr, rq, dr⟩) "dependentRequired" = .ok (some (.obj (encodeDepReq dr))) := by
        rw [getField_omitIf (filter_sf_dependentRequired ⟨de, fo, it, pr, ro, wo, nu, ap, ex, ti, df, ao, oo, ay, st, ev, cv, mo, mn, emn, mx, emx, mal, mil, pa, mai, mii, ui, mpr, mipr, rq, dr⟩)]
        simp [hdrne]
      have h32 : decodeDepReqGo [] (encodeDepReq dr) = .ok dr := by
        simpa using decodeDepReqGo_append dr [] hdru (by intro e he; rfl)
      rcases it with _ | cit
      · rcases ap with _ | cap
        · simp only [decodeSchema, encodeSchema, h01, h02, g03, g04, h04, h05, h06, h07, g08, h09, h10, h11, g12, h12, g13, h13, g14, h14, h15, h16, h17, h18, h19, h20, h21, h22, h23, h24, h25, h26, h27, h28, h29, h30, h31, g32, h32, ebind_ok, epure, Option.map_some', Option.map_none']
        · have hdap : decodeCIS n (encodeCIS cap) = .ok cap := ih2 cap hfap
          simp only [decodeSchema, encodeSchema, h01, h02, g03, g04, h04, h05, h06, h07, g08, h09, h10, h11, g12, h12, g13, h13, g14, h14, h15, h16, h17, h18, h19, h20, h21, h22, h23, h24, h25, h26, h27, h28, h29, h30, h31, g32, h32, ebind_ok, epure, Option.map_some', Option.map_none', hdap]
      · rcases ap with _ | cap
        · have hdit : decodeCIS n (encodeCIS cit) = .ok cit := ih2 cit hfit
          simp only [decodeSchema, encodeSchema, h01, h02, g03, g04, h04, h05, h06, h07, g08, h09, h10, h11, g12, h12, g13, h13, g14, h14, h15, h16, h17, h18, h19, h20, h21, h22, h23, h24, h25, h26, h27, h28, h29, h30, h31, g32, h32, ebind_ok, epure, Option.map_some', Option.map_none', hdit]
        · have hdit : decodeCIS n (encodeCIS cit) = .ok cit := ih2 cit hfit
          have hdap : decodeCIS n (encodeCIS cap) = .ok cap := ih2 cap hfap
          simp only [decodeSchema, encodeSchema, h01, h02, g03, g04, h04, h05, h06, h07, g08, h09, h10, h11, g12, h12, g13, h13, g14, h14, h15, h16, h17, h18, h19, h20, h21, h22, h23, h24, h25, h26, h27, h28, h29, h30, h31, g32, h32, ebind_ok, epure, Option.map_some', Option.map_none', hdit, hdap]
    · intro c hc
      rcases c with name | s
      · simp [decodeCIS, encodeCIS, tryComponentRef, getField, component_ser,
          component_deser, stripStart_append]
      · have h1 : tryComponentRef (.obj (schemaFields s)) = none := by
          simp [tryComponentRef, getField_sf_ref s]
        have h2 : decodeSchema n (.obj (schemaFields s)) = .ok s := ih1 s hc
        simp [decodeCIS, encodeCIS, h1, h2]
    · intro l hl
      cases l with
      | nil => rfl
      | cons c tl =>
        simp only [cisListFull, Bool.and_eq_true] at hl
        obtain ⟨hc, htl⟩ := hl
        simp [encodeCISList, decodeCISList, ih2 c hc, ih3 tl htl]
    · intro l acc hl hu hdis
      cases l with
      | nil => simp [encodeProps, decodePropsGo]
      | cons hd tl =>
        obtain ⟨k, c⟩ := hd
        simp only [propsFull, Bool.and_eq_true] at hl
        obtain ⟨hc, htl⟩ := hl
        obtain ⟨hk, hu2⟩ := keysUnique_cons hu
        have hfresh : acc.any (fun e2 => e2.1 == k) = false :=
          hdis (k, c) (List.mem_cons_self _ _)
        rw [show encodeProps ((k, c) :: tl) = (k, encodeCIS c) :: encodeProps tl from rfl]
        simp only [decodePropsGo, ih2 c hc, ebind_ok]
        rw [imapInsert_append hfresh]
        rw [ih4 tl (acc ++ [(k, c)]) htl hu2 ?_]
        · simp
        · intro e he
          have h1 : acc.any (fun e2 => e2.1 == e.1) = false :=
            hdis e (List.mem_cons_of_mem _ he)
          have h2 : (e.1 == k) = false := by
            have h3 := List.any_eq_false.mp hk e he
            simpa using h3
          have h3 : (k == e.1) = false := by
            rw [beq_eq_false_iff_ne] at h2 ⊢
            exact h2.symm
          simp [List.any_append, h1, h3]

/-! ## Inversion: what a successful schema decode implies -/

@[simp] theorem ethrow (e : DErr) : (throw e : Except DErr α) = .error e := rfl

theorem bind_ok_inv {x : Except DErr α} {f : α → Except DErr β} {b : β}
    (h : (x >>= f) = .ok b) : ∃ a, x = .ok a ∧ f a = .ok b := by
  cases x with
  | error e => simp at h
  | ok a => exact ⟨a, rfl, by simpa using h⟩

theorem reqStr_ok_inv {kvs k v} (h : reqStr kvs k = .ok v) :
    getField kvs k = .ok (some (.str v)) := by
  cases hg : getField kvs k with
  | error e => simp [reqStr, hg] at h
  | ok o =>
    rcases o with _ | jv
    · simp [reqStr, hg] at h
    · cases jv <;> simp_all [reqStr, hg]

/-- A successful `Schema` decode pins the four required string fields:
each was present in the input as a string.  (Serde's derive checks the
struct's non-defaulted fields; absence of any of them would have aborted
the decode.) -/
theorem decodeSchema_ok_fields {n : Nat} {kvs : List (String × Json)} {s : Schema}
    (h : decodeSchema (n + 1) (.obj kvs) = .ok s) :
    (∃ v, getField kvs "description" = .ok (some (.str v))) ∧
    (∃ v, getField kvs "format" = .ok (some (.str v))) ∧
    (∃ v, getField kvs "title" = .ok (some (.str v))) ∧
    (∃ v, getField kvs "pattern" = .ok (some (.str v))) := by
  simp only [decodeSchema] at h
  obtain ⟨de, hde, h⟩ := bind_ok_inv h
  obtain ⟨fo, hfo, h⟩ := bind_ok_inv h
  obtain ⟨it, hit, h⟩ := bind_ok_inv h
  obtain ⟨pr, hpr, h⟩ := bind_ok_inv h
  obtain ⟨ro, hro, h⟩ := bind_ok_inv h
  obtain ⟨wo, hwo, h⟩ := bind_ok_inv h
  obtain ⟨nu, hnu, h⟩ := bind_ok_inv h
  obtain ⟨ap, hap, h⟩ := bind_ok_inv h
  obtain ⟨ex, hex, h⟩ := bind_ok_inv h
  obtain ⟨ti, hti, h⟩ := bind_ok_inv h
  obtain ⟨df, hdf, h⟩ := bind_ok_inv h
  obtain ⟨ao, hao, h⟩ := bind_ok_inv h
  obtain ⟨oo, hoo, h⟩ := bind_ok_inv h
  obtain ⟨ay, hay, h⟩ := bind_ok_inv h
  obtain ⟨st, hst, h⟩ := bind_ok_inv h
  obtain ⟨ev, hev, h⟩ := bind_ok_inv h
  obtain ⟨cv, hcv, h⟩ := bind_ok_inv h
  obtain ⟨mo, hmo, h⟩ := bind_ok_inv h
  obtain ⟨mn, hmn, h⟩ := bind_ok_inv h
  obtain ⟨emn, hemn, h⟩ := bind_ok_inv h
  obtain ⟨mx, hmx, h⟩ := bind_ok_inv h
  obtain ⟨emx, hemx, h⟩ := bind_ok_inv h
  obtain ⟨mal, hmal, h⟩ := bind_ok_inv h
  obtain ⟨mil, hmil, h⟩ := bind_ok_inv h
  obtain ⟨pa, hpa, h⟩ := bind_ok_inv h
  exact ⟨⟨de, reqStr_ok_inv hde⟩, ⟨fo, reqStr_ok_inv hfo⟩, ⟨ti, reqStr_ok_inv hti⟩,
    ⟨pa, reqStr_ok_inv hpa⟩⟩

/-- Decoding any keyed structure without a `description` entry as a
`Schema` aborts at the first non-defaulted field. -/
theorem decodeSchema_missing_description {n : Nat} {kvs : List (String × Json)}
    (h : getField kvs "description" = .ok none) :
    decodeSchema (n + 1) (.obj kvs) = .error (.missingField "description") := by
  simp [decodeSchema, reqStr, h]

/-! ## Order lemmas for the registry maps -/

theorem char_eq_of_toNat_eq {a b : Char} (h : a.toNat = b.toNat) : a = b :=
  Char.eq_of_val_eq (UInt32.ext h)

theorem charListLt_trans (as : List Char) : ∀ bs cs, charListLt as bs = true →
    charListLt bs cs = true → charListLt as cs = true := by
  induction as with
  | nil =>
    intro bs cs h1 h2
    cases bs with
    | nil => simp [charListLt] at h1
    | cons b bs =>
      cases cs with
      | nil => simp [charListLt] at h2
      | cons c cs => rfl
  | cons a as ih =>
    intro bs cs h1 h2
    cases bs with
    | nil => simp [charListLt] at h1
    | cons b bs =>
      cases cs with
      | nil => simp [charListLt] at h2
      | cons c cs =>
        simp only [charListLt] at h1 h2 ⊢
        by_cases hab : a.toNat < b.toNat
        · by_cases hbc : b.toNat < c.toNat
          · simp [show a.toNat < c.toNat from Nat.lt_trans hab hbc]
          · by_cases hcb : c.toNat < b.toNat
            · simp [hbc, hcb] at h2
            · have he : b.toNat = c.toNat :=
                Nat.le_antisymm (Nat.not_lt.mp hcb) (Nat.not_lt.mp hbc)
              simp [show a.toNat < c.toNat by omega]
        · by_cases hba : b.toNat < a.toNat
          · simp [hab, hba] at h1
          · have he : a.toNat = b.toNat :=
              Nat.le_antisymm (Nat.not_lt.mp hba) (Nat.not_lt.mp hab)
            rw [if_neg hab, if_neg hba] at h1
            by_cases hbc : b.toNat < c.toNat
            · simp [show a.toNat < c.toNat by omega]
            · by_cases hcb : c.toNat < b.toNat
              · simp [hbc, hcb] at h2
              · rw [if_neg hbc, if_neg hcb] at h2
                rw [if_neg (by omega), if_neg (by omega)]
                exact ih bs cs h1 h2

theorem charListLt_eq (as : List Char) : ∀ bs, charListLt as bs = false →
    charListLt bs as = false → as = bs := by
  induction as with
  | nil =>
    intro bs h1 _
    cases bs with
    | nil => rfl
    | cons b bs => simp [charListLt] at h1
  | cons a as ih =>
    intro bs h1 h2
    cases bs with
    | nil => simp [charListLt] at h2
    | cons b bs =>
      simp only [charListLt] at h1 h2
      by_cases hab : a.toNat < b.toNat
      · simp [hab] at h1
      · by_cases hba : b.toNat < a.toNat
        · simp [hab, hba] at h1
          simp [hba] at h2
        · rw [if_neg hab, if_neg hba] at h1
          rw [if_neg hba, if_neg hab] at h2
          have hc : a = b := char_eq_of_toNat_eq
            (Nat.le_antisymm (Nat.not_lt.mp hba) (Nat.not_lt.mp hab))
          rw [hc, ih bs h1 h2]

theorem strLtB_trans {a b c : String} (h1 : strLtB a b = true) (h2 : strLtB b c = true) :
    strLtB a c = true :=
  charListLt_trans a.data b.data c.data h1 h2

theorem strLtB_eq {a b : String} (h1 : strLtB a b = false) (h2 : strLtB b a = false) :
    a = b := by
  have h : a.data = b.data := charListLt_eq a.data b.data h1 h2
  exact congrArg String.mk h

/-- Keys present in a `bmapInsert` result: the inserted key or one of
the old keys. -/
theorem mem_keys_bmapInsert {k : String} {v : α} :
    ∀ (l : List (String × α)) (e : String × α), e ∈ bmapInsert k v l →
      e.1 = k ∨ e.1 ∈ l.map Prod.fst := by
  intro l
  induction l with
  | nil =>
    intro e he
    simp [bmapInsert] at he
    simp [he]
  | cons hd tl ih =>
    intro e he
    obtain ⟨k2, v2⟩ := hd
    simp only [bmapInsert] at he
    by_cases h1 : strLtB k k2 = true
    · rw [if_pos h1] at he
      rcases List.mem_cons.mp he with rfl | he2
      · exact Or.inl rfl
      · rcases List.mem_cons.mp he2 with rfl | he3
        · right
          simp
        · right
          simp only [List.map_cons, List.mem_cons]
          exact Or.inr (List.mem_map_of_mem Prod.fst he3)
    · rw [if_neg h1] at he
      by_cases h2 : strLtB k2 k = true
      · rw [if_pos h2] at he
        rcases List.mem_cons.mp he with rfl | he2
        · right
          simp
        · rcases ih e he2 with h | h
          · exact Or.inl h
          · right
            simp only [List.map_cons, List.mem_cons]
            exact Or.inr h
      · rw [if_neg h2] at he
        rcases List.mem_cons.mp he with rfl | he2
        · right
          simp
        · right
          simp only [List.map_cons, List.mem_cons]
          exact Or.inr (List.mem_map_of_mem Prod.fst he2)

/-- `BTreeMap::insert` keeps the strict-ascending-key invariant. -/
theorem pairwise_bmapInsert {k : String} {v : α} :
    ∀ (l : List (String × α)), l.Pairwise (fun a b => strLtB a.1 b.1 = true) →
      (bmapInsert k v l).Pairwise (fun a b => strLtB a.1 b.1 = true) := by
  intro l
  induction l with
  | nil =>
    intro _
    simp [bmapInsert]
  | cons hd tl ih =>
    intro h
    obtain ⟨k2, v2⟩ := hd
    rw [List.pairwise_cons] at h
    obtain ⟨hk2, htl⟩ := h
    simp only [bmapInsert]
    by_cases h1 : strLtB k k2 = true
    · rw [if_pos h1]
      refine List.Pairwise.cons ?_ (List.Pairwise.cons hk2 htl)
      intro e he
      rcases List.mem_cons.mp he with rfl | he2
      · exact h1
      · exact strLtB_trans h1 (hk2 e he2)
    · rw [if_neg h1]
      by_cases h2 : strLtB k2 k = true
      · rw [if_pos h2]
        refine List.Pairwise.cons ?_ (ih htl)
        intro e he
        rcases mem_keys_bmapInsert tl e he with he1 | he1
        · rw [he1]
          exact h2
        · obtain ⟨e2, he2, he2eq⟩ := List.mem_map.mp he1
          have h3 := hk2 e2 he2
          rw [he2eq] at h3
          exact h3
      · rw [if_neg h2]
        exact List.Pairwise.cons hk2 htl

/-- Decoding registry entries preserves the sorted invariant. -/
theorem decodeBMapGo_sorted {d : Json → Except DErr α} :
    ∀ (kvs : List (String × Json)) (acc res : List (String × α)),
      acc.Pairwise (fun a b => strLtB a.1 b.1 = true) →
      decodeBMapGo d acc kvs = .ok res →
      res.Pairwise (fun a b => strLtB a.1 b.1 = true) := by
  intro kvs
  induction kvs with
  | nil =>
    intro acc res hs h
    simp only [decodeBMapGo] at h
    cases h
    exact hs
  | cons hd tl ih =>
    intro acc res hs h
    obtain ⟨k, jv⟩ := hd
    simp only [decodeBMapGo] at h
    cases hd2 : d jv with
    | error e =>
      rw [hd2] at h
      simp at h
    | ok v =>
      rw [hd2, ebind_ok] at h
      exact ih (bmapInsert k v acc) res (pairwise_bmapInsert acc hs) h

/-! ## Key-order lemmas for the insertion-ordered maps -/

theorem any_keys_eq_false {l : List (String × α)} {k : String}
    (h : k ∉ l.map Prod.fst) : l.any (fun e => e.1 == k) = false := by
  rw [List.any_eq_false]
  intro e he
  simp only [Bool.not_eq_true, beq_eq_false_iff_ne]
  intro hk
  exact h (hk ▸ List.mem_map_of_mem Prod.fst he)

/-- Encoding the `properties` map emits keys in stored order. -/
theorem encodeProps_keys :
    ∀ m : List (String × ComponentOrInlineSchema),
      (encodeProps m).map Prod.fst = m.map Prod.fst := by
  intro m
  induction m with
  | nil => rfl
  | cons hd tl ih =>
    obtain ⟨k, c⟩ := hd
    simp [encodeProps, ih]

/-- Encoding the `dependent_required` map emits keys in stored order. -/
theorem encodeDepReq_keys :
    ∀ m : IMap (List Str), (encodeDepReq m).map Prod.fst = m.map Prod.fst := by
  intro m
  simp [encodeDepReq]

/-- Decoding `properties` records keys in input order (duplicate-free
inputs). -/
theorem decodePropsGo_keys :
    ∀ (entries : List (String × Json)) (n : Nat)
      (acc res : List (String × ComponentOrInlineSchema)),
      (acc.map Prod.fst ++ entries.map Prod.fst).Nodup →
      decodePropsGo n acc entries = .ok res →
      res.map Prod.fst = acc.map Prod.fst ++ entries.map Prod.fst := by
  intro entries
  induction entries with
  | nil =>
    intro n acc res _ h
    cases n <;> (simp only [decodePropsGo] at h; cases h; simp)
  | cons hd tl ih =>
    intro n acc res hnd h
    obtain ⟨k, jv⟩ := hd
    cases n with
    | zero => simp [decodePropsGo] at h
    | succ n =>
      simp only [decodePropsGo] at h
      cases hd2 : decodeCIS n jv with
      | error e =>
        rw [hd2] at h
        simp at h
      | ok c =>
        rw [hd2, ebind_ok] at h
        have hknotin : k ∉ acc.map Prod.fst := by
          intro hmem
          rw [List.map_cons] at hnd
          rcases List.nodup_append.mp hnd with ⟨_, _, hdisj⟩
          exact hdisj hmem (List.mem_cons_self _ _)
        rw [imapInsert_append (any_keys_eq_false hknotin)] at h
        have hnd2 : ((acc ++ [(k, c)]).map Prod.fst ++ tl.map Prod.fst).Nodup := by
          simp only [List.map_append, List.map_cons, List.map_nil] at hnd ⊢
          rw [← List.append_cons]
          exact hnd
        have h4 := ih n (acc ++ [(k, c)]) res hnd2 h
        simp only [List.map_append, List.map_cons, List.map_nil] at h4 ⊢
        rw [← List.append_cons] at h4
        exact h4

/-- Decoding `dependent_required` records keys in input order. -/
theorem decodeDepReqGo_keys :
    ∀ (entries : List (String × Json)) (acc res : IMap (List Str)),
      (acc.map Prod.fst ++ entries.map Prod.fst).Nodup →
      decodeDepReqGo acc entries = .ok res →
      res.map Prod.fst = acc.map Prod.fst ++ entries.map Prod.fst := by
  intro entries
  induction entries with
  | nil =>
    intro acc res _ h
    simp only [decodeDepReqGo] at h
    cases h
    simp
  | cons hd tl ih =>
    intro acc res hnd h
    obtain ⟨k, jv⟩ := hd
    rcases jv with _ | b | i | s2 | js | kv2
    · simp only [decodeDepReqGo] at h
      simp at h
    · simp only [decodeDepReqGo] at h
      simp at h
    · simp only [decodeDepReqGo] at h
      simp at h
    · simp only [decodeDepReqGo] at h
      simp at h
    · simp only [decodeDepReqGo] at h
      cases hd2 : decodeStrList js with
      | error e =>
        rw [hd2] at h
        simp at h
      | ok vs =>
        rw [hd2, ebind_ok] at h
        have hknotin : k ∉ acc.map Prod.fst := by
          intro hmem
          rw [List.map_cons] at hnd
          rcases List.nodup_append.mp hnd with ⟨_, _, hdisj⟩
          exact hdisj hmem (List.mem_cons_self _ _)
        rw [imapInsert_append (any_keys_eq_false hknotin)] at h
        have hnd2 : ((acc ++ [(k, vs)]).map Prod.fst ++ tl.map Prod.fst).Nodup := by
          simp only [List.map_append, List.map_cons, List.map_nil] at hnd ⊢
          rw [← List.append_cons]
          exact hnd
        have h4 := ih (acc ++ [(k, vs)]) res hnd2 h
        simp only [List.map_append, List.map_cons, List.map_nil] at h4 ⊢
        rw [← List.append_cons] at h4
        exact h4
    · simp only [decodeDepReqGo] at h
      simp at h

/-- Every serialized registry lists its entries in the stored
(ascending) key order. -/
theorem pairwise_keys_encodeBMap (f : α → Json) (m : BMap α) :
    (objKeys (encodeBMap f m)).Pairwise (fun a b => strLtB a b = true) := by
  have h : objKeys (encodeBMap f m) = m.entries.map Prod.fst := by
    simp [objKeys, encodeBMap, List.map_map]
  rw [h]
  exact List.pairwise_map.mpr m.sorted

/-! # Claim theorems -/

/-- C1 (counterexample): the round-trip `decode(encode(D)) = D` fails on
the code as soon as an omittable field holds its empty value: the
default `Schema` encodes to the empty object, and decoding that fails
with a missing-required-field error instead of returning the value. -/
theorem schema_roundtrip_counterexample :
    encodeSchema defaultSchema = .obj [] ∧
    decodeSchema 9 (encodeSchema defaultSchema) = .error (.missingField "description") ∧
    decodeSchema 9 (encodeSchema defaultSchema) ≠ .ok defaultSchema := by
  refine ⟨rfl, rfl, ?_⟩
  intro h
  rw [show decodeSchema 9 (encodeSchema defaultSchema)
      = .error (.missingField "description") from rfl] at h
  exact Except.noConfusion h

/-- C1 (amended): for every schema-subtree value (a `Schema`, a
`ComponentOrInlineSchema`, or an `ObjectOrReference<Schema>`) in which
every omit-when-empty string, sequence and map field is non-empty
(`Option` fields may be unset), with duplicate-free map keys and within
the decoder's recursion budget, decoding the encoding returns the value
unchanged. -/
theorem schema_roundtrip_amended :
    (∀ (n : Nat) (s : Schema), schemaFull n s = true →
      decodeSchema n (encodeSchema s) = .ok s) ∧
    (∀ (n : Nat) (c : ComponentOrInlineSchema), cisFull n c = true →
      decodeCIS n (encodeCIS c) = .ok c) ∧
    (∀ (n : Nat) (o : ObjectOrReference Schema), oorFull n o = true →
      decodeOORSchema n (encodeOOR encodeSchema o) = .ok o) := by
  refine ⟨fun n => (roundtripAux n).1, fun n => (roundtripAux n).2.1, ?_⟩
  intro n o ho
  cases n with
  | zero => simp [oorFull] at ho
  | succ n =>
    cases o with
    | Object s =>
      have h := (roundtripAux (n + 1)).1 s ho
      simp only [decodeOORSchema, decodeOOR, encodeOOR]
      rw [h]
    | Ref p =>
      have h1 : getField [(("$ref" : String), Json.str p)] "description" = .ok none := by
        simp [getField]
      simp only [decodeOORSchema, decodeOOR, encodeOOR]
      rw [decodeSchema_missing_description h1]
      simp [tryRefPath, getField]

/-- C1 (witness). -/
theorem schema_roundtrip_amended_witness :
    schemaFull 3 fullSchemaW = true ∧
    decodeSchema 3 (encodeSchema fullSchemaW) = .ok fullSchemaW :=
  ⟨rfl, schema_roundtrip_amended.1 3 fullSchemaW rfl⟩

/-- C2 (counterexample): an input carrying both the pointer key `$ref`
and a complete inline field set decodes, as `ObjectOrReference<Schema>`,
to the inline `Object` variant — not to `Ref` — because the untagged
enum tries `Object` first. -/
theorem ref_precedence_counterexample :
    decodeOORSchema 1 refAndInlineInput = .ok (.Object inlineFieldSchema) ∧
    decodeOORSchema 1 refAndInlineInput ≠ .ok (.Ref "#/components/schemas/Pet") := by
  refine ⟨rfl, ?_⟩
  intro h
  rw [show decodeOORSchema 1 refAndInlineInput = .ok (.Object inlineFieldSchema)
      from rfl] at h
  simp at h

/-- C2 (amended): for `ObjectOrReference<T>` the inline `Object` variant
is declared first and wins whenever `T`'s decode succeeds, even when
`$ref` is present; `Ref` is produced exactly when `T`'s decode fails and
`$ref` holds a string.  For `ComponentOrInlineSchema` the `Component`
variant is declared first: whenever `$ref` holds a string carrying the
canonical prefix, decoding yields `Component` regardless of which other
keys co-occur. -/
theorem ref_precedence_amended :
    (∀ (T : Type) (d : Json → Except DErr T) (j : Json) (t : T),
      d j = .ok t → decodeOOR d j = .ok (.Object t)) ∧
    (∀ (T : Type) (d : Json → Except DErr T) (kvs : List (String × Json))
      (e : DErr) (p : Str), d (.obj kvs) = .error e →
      getField kvs "$ref" = .ok (some (.str p)) →
      decodeOOR d (.obj kvs) = .ok (.Ref p)) ∧
    (∀ (n : Nat) (kvs : List (String × Json)) (r name : Str),
      getField kvs "$ref" = .ok (some (.str r)) →
      stripStart PATH_REF_BASE r = some name →
      decodeCIS (n + 1) (.obj kvs) = .ok (.Component name)) := by
  refine ⟨?_, ?_, ?_⟩
  · intro T d j t h
    simp [decodeOOR, h]
  · intro T d kvs e p h1 h2
    simp [decodeOOR, h1, tryRefPath, h2]
  · intro n kvs r name h1 h2
    simp [decodeCIS, tryComponentRef, h1, component_deser, h2]

/-- C2 (witness). -/
theorem ref_precedence_amended_witness :
    decodeCIS 1 (.obj [("$ref", .str "#/components/schemas/Pet"), ("title", .str "t")])
      = .ok (.Component "Pet") :=
  ref_precedence_amended.2.2 0 [("$ref", .str "#/components/schemas/Pet"),
    ("title", .str "t")] "#/components/schemas/Pet" "Pet" rfl rfl

/-- C3: decoding an object without `description` fails with the
missing-required-field error; likewise an object missing `format`,
`title` or `pattern` never decodes (shown generally, and with the exact
missing-field error on inputs complete except for that field), even
though encoding omits exactly these fields whenever they are empty. -/
theorem schema_missing_required_fields :
    (∀ (n : Nat) (kvs : List (String × Json)), getField kvs "description" = .ok none →
      decodeSchema (n + 1) (.obj kvs) = .error (.missingField "description")) ∧
    (∀ (n : Nat) (kvs : List (String × Json)) (s : Schema),
      getField kvs "format" = .ok none → decodeSchema n (.obj kvs) ≠ .ok s) ∧
    (∀ (n : Nat) (kvs : List (String × Json)) (s : Schema),
      getField kvs "title" = .ok none → decodeSchema n (.obj kvs) ≠ .ok s) ∧
    (∀ (n : Nat) (kvs : List (String × Json)) (s : Schema),
      getField kvs "pattern" = .ok none → decodeSchema n (.obj kvs) ≠ .ok s) ∧
    decodeSchema 1 (.obj [("description", .str "d"), ("properties", .obj []),
      ("title", .str "t"), ("allOf", .arr []), ("oneOf", .arr []), ("anyOf", .arr []),
      ("enum", .arr []), ("pattern", .str "x"), ("required", .arr []),
      ("dependentRequired", .obj [])]) = .error (.missingField "format") ∧
    decodeSchema 1 (.obj [("description", .str "d"), ("format", .str "f"),
      ("properties", .obj []), ("allOf", .arr []), ("oneOf", .arr []),
      ("anyOf", .arr []), ("enum", .arr []), ("pattern", .str "x"),
      ("required", .arr []), ("dependentRequired", .obj [])])
      = .error (.missingField "title") ∧
    decodeSchema 1 (.obj [("description", .str "d"), ("format", .str "f"),
      ("properties", .obj []), ("title", .str "t"), ("allOf", .arr []),
      ("oneOf", .arr []), ("anyOf", .arr []), ("enum", .arr []),
      ("required", .arr []), ("dependentRequired", .obj [])])
      = .error (.missingField "pattern") ∧
    (∀ s : Schema, (schemaFields s).filter (fun e => e.1 == "description")
      = omitIf s.description.isEmpty "description" (.str s.description)) ∧
    (∀ s : Schema, (schemaFields s).filter (fun e => e.1 == "format")
      = omitIf s.format.isEmpty "format" (.str s.format)) ∧
    (∀ s : Schema, (schemaFields s).filter (fun e => e.1 == "title")
      = omitIf s.title.isEmpty "title" (.str s.title)) ∧
    (∀ s : Schema, (schemaFields s).filter (fun e => e.1 == "pattern")
      = omitIf s.pattern.isEmpty "pattern" (.str s.pattern)) := by
  refine ⟨?_, ?_, ?_, ?_, rfl, rfl, rfl, filter_sf_description, filter_sf_format,
    filter_sf_title, filter_sf_pattern⟩
  · intro n kvs h
    exact decodeSchema_missing_description h
  · intro n kvs s hmiss h
    cases n with
    | zero => simp [decodeSchema] at h
    | succ n =>
      obtain ⟨_, ⟨v, hv⟩, _, _⟩ := decodeSchema_ok_fields h
      rw [hmiss] at hv
      exact Option.noConfusion (Except.ok.inj hv)
  · intro n kvs s hmiss h
    cases n with
    | zero => simp [decodeSchema] at h
    | succ n =>
      obtain ⟨_, _, ⟨v, hv⟩, _⟩ := decodeSchema_ok_fields h
      rw [hmiss] at hv
      exact Option.noConfusion (Except.ok.inj hv)
  · intro n kvs s hmiss h
    cases n with
    | zero => simp [decodeSchema] at h
    | succ n =>
      obtain ⟨_, _, _, ⟨v, hv⟩⟩ := decodeSchema_ok_fields h
      rw [hmiss] at hv
      exact Option.noConfusion (Except.ok.inj hv)

/-- C3 (witness). -/
theorem schema_missing_required_fields_witness :
    decodeSchema 1 (.obj []) = .error (.missingField "description") :=
  schema_missing_required_fields.1 0 [] rfl

/-- C4: the component reference codec emits the canonical pointer string
for "Pet", decodes it back, rejects any string not carrying the
canonical prefix (such as the bare "Pet") with the invalid-format
error, and round-trips every component name. -/
theorem component_ref_codec :
    component_ser "Pet" = .str "#/components/schemas/Pet" ∧
    component_deser (.str "#/components/schemas/Pet") = .ok "Pet" ∧
    component_deser (.str "Pet") = .error (.invalidReferenceFormat "Pet") ∧
    (∀ s : Str, stripStart PATH_REF_BASE s = none →
      component_deser (.str s) = .error (.invalidReferenceFormat s)) ∧
    (∀ name : Str, component_deser (component_ser name) = .ok name) := by
  refine ⟨rfl, rfl, rfl, ?_, ?_⟩
  · intro s h
    simp [component_deser, h]
  · intro name
    simp [component_deser, component_ser, stripStart_append]

/-- C4 (witness). -/
theorem component_ref_codec_witness :
    component_deser (.str "PetNoPrefix") = .error (.invalidReferenceFormat "PetNoPrefix") ∧
    component_deser (component_ser "Order") = .ok "Order" :=
  ⟨component_ref_codec.2.2.2.1 "PetNoPrefix" rfl,
   component_ref_codec.2.2.2.2 "Order"⟩

/-- C5: an object with a usable `value` field decodes to the `Embedded`
variant (the first declared variant wins, whatever other keys are
present, including `externalValue`); an object with only `externalValue`
decodes to `External`; an object with neither key fails with the
no-variant-matched error. -/
theorem example_value_variant_selection :
    (∀ (kvs : List (String × Json)) (v : Json), getField kvs "value" = .ok (some v) →
      decodeExampleValue (.obj kvs) = .ok (.Embedded v)) ∧
    (∀ s : Str, decodeExampleValue (.obj [("externalValue", .str s)])
      = .ok (.External s)) ∧
    (∀ kvs : List (String × Json), getField kvs "value" = .ok none →
      getField kvs "externalValue" = .ok none →
      decodeExampleValue (.obj kvs) = .error (.noVariantMatched "ExampleValue")) := by
  refine ⟨?_, ?_, ?_⟩
  · intro kvs v h
    simp [decodeExampleValue, h]
  · intro s
    simp [decodeExampleValue, getField]
  · intro kvs h1 h2
    simp [decodeExampleValue, h1, h2]

/-- C5 (witness). -/
theorem example_value_variant_selection_witness :
    decodeExampleValue (.obj [("externalValue", .str "u"), ("value", .num 1)])
      = .ok (.Embedded (.num 1)) ∧
    decodeExampleValue (.obj [("summary", .str "s")])
      = .error (.noVariantMatched "ExampleValue") :=
  ⟨example_value_variant_selection.1 [("externalValue", .str "u"), ("value", .num 1)]
    (.num 1) rfl,
   example_value_variant_selection.2.2 [("summary", .str "s")] rfl rfl⟩

/-- C6: the security-scheme decoder reads the required `type`
discriminant and switches on it: the oauth2 sample whose flows carry
only an implicit-flow payload decodes to the `OAuth2` variant with the
implicit slot populated and the password, client-credentials and
authorization-code slots all unset; a tag outside the closed set
{apiKey, http, oauth2, openIdConnect} fails with the unknown-variant
error. -/
theorem security_scheme_tag_dispatch :
    decodeSecurityScheme oauthImplicitInput = .ok oauthImplicitScheme ∧
    (∀ (kvs : List (String × Json)) (t : Str),
      getField kvs "type" = .ok (some (.str t)) →
      (t == "apiKey") = false → (t == "http") = false → (t == "oauth2") = false →
      (t == "openIdConnect") = false →
      decodeSecurityScheme (.obj kvs) = .error (.unknownVariant t)) := by
  refine ⟨rfl, ?_⟩
  intro kvs t h h1 h2 h3 h4
  simp [decodeSecurityScheme, h, h1, h2, h3, h4]

/-- C6 (witness). -/
theorem security_scheme_tag_dispatch_witness :
    decodeSecurityScheme (.obj [("type", .str "basic")])
      = .error (.unknownVariant "basic") :=
  security_scheme_tag_dispatch.2 [("type", .str "basic")] "basic" rfl rfl rfl rfl rfl

/-- C7: the serialized form of a `Schema` carries the `nullable` field
exactly when the flag is set: the field entries of the output with key
`nullable` are precisely the `Option` chunk of the flag, so an explicit
`some false` is emitted as `false` and `none` is absent entirely. -/
theorem schema_nullable_omission (s : Schema) :
    (schemaFields s).filter (fun e => e.1 == "nullable")
      = optField "nullable" s.nullable Json.bool ∧
    getField (schemaFields s) "nullable" = .ok (Option.map Json.bool s.nullable) :=
  ⟨filter_sf_nullable s, getField_optField (filter_sf_nullable s)⟩

/-- C8: the `properties` and `dependentRequired` maps preserve entry
order: encoding emits keys in stored order, and decoding (with
duplicate-free keys) records keys in input order; neither sorts. -/
theorem schema_maps_preserve_order :
    (∀ m : List (String × ComponentOrInlineSchema),
      (encodeProps m).map Prod.fst = m.map Prod.fst) ∧
    (∀ m : IMap (List Str), (encodeDepReq m).map Prod.fst = m.map Prod.fst) ∧
    (∀ (n : Nat) (entries : List (String × Json))
      (res : List (String × ComponentOrInlineSchema)),
      (entries.map Prod.fst).Nodup → decodePropsGo n [] entries = .ok res →
      res.map Prod.fst = entries.map Prod.fst) ∧
    (∀ (entries : List (String × Json)) (res : IMap (List Str)),
      (entries.map Prod.fst).Nodup → decodeDepReqGo [] entries = .ok res →
      res.map Prod.fst = entries.map Prod.fst) := by
  refine ⟨encodeProps_keys, encodeDepReq_keys, ?_, ?_⟩
  · intro n entries res hnd h
    have h2 := decodePropsGo_keys entries n [] res (by simpa using hnd) h
    simpa using h2
  · intro entries res hnd h
    have h2 := decodeDepReqGo_keys entries [] res (by simpa using hnd) h
    simpa using h2

/-- C8 (witness): keys stay in declaration order, not sorted. -/
theorem schema_maps_preserve_order_witness :
    List.map Prod.fst [(("b" : String), ComponentOrInlineSchema.Component "B"),
        ("a", ComponentOrInlineSchema.Component "A")]
      = List.map Prod.fst [(("b" : String), Json.obj [("$ref",
          .str "#/components/schemas/B")]),
        ("a", Json.obj [("$ref", .str "#/components/schemas/A")])] :=
  schema_maps_preserve_order.2.2.1 3
    [("b", .obj [("$ref", .str "#/components/schemas/B")]),
     ("a", .obj [("$ref", .str "#/components/schemas/A")])]
    [("b", .Component "B"), ("a", .Component "A")] (by decide) rfl

/-- C9: encoding is total — every serializer in the model is a total
function, and the top-level document, the schema node and the component
registries always produce a keyed-structure textual shape. -/
theorem encode_total :
    (∀ sp : Spec, ∃ fields, encodeSpec sp = .obj fields) ∧
    (∀ s : Schema, ∃ fields, encodeSchema s = .obj fields) ∧
    (∀ c : Components, ∃ fields, encodeComponents c = .obj fields) :=
  ⟨fun _sp => ⟨_, rfl⟩, fun _s => ⟨_, rfl⟩, fun _c => ⟨_, rfl⟩⟩

/-- C10: every registry of `Components` is keyed by sorted name —
serialization lists each registry's entries in ascending lexicographic
key order — while declaration order of the decoded input is not
preserved across a decode/encode round trip (keys "b","a" come back as
"a","b"); decoded registries always satisfy the sorted invariant. -/
theorem components_sorted_registries :
    (∀ c : Components,
      (objKeys (encodeBMap (encodeOOR encodeSchema) c.schemas)).Pairwise
        (fun a b => strLtB a b = true) ∧
      (objKeys (encodeBMap (encodeOOR encodeResponse) c.responses)).Pairwise
        (fun a b => strLtB a b = true) ∧
      (objKeys (encodeBMap (encodeOOR encodeParameter) c.parameters)).Pairwise
        (fun a b => strLtB a b = true) ∧
      (objKeys (encodeBMap (encodeOOR encodeExample) c.examples)).Pairwise
        (fun a b => strLtB a b = true) ∧
      (objKeys (encodeBMap (encodeOOR encodeRequestBody) c.request_bodies)).Pairwise
        (fun a b => strLtB a b = true) ∧
      (objKeys (encodeBMap (encodeOOR encodeHeader) c.headers)).Pairwise
        (fun a b => strLtB a b = true) ∧
      (objKeys (encodeBMap (encodeOOR encodeSecurityScheme) c.security_schemes)).Pairwise
        (fun a b => strLtB a b = true) ∧
      (objKeys (encodeBMap (encodeOOR encodeLink) c.links)).Pairwise
        (fun a b => strLtB a b = true) ∧
      (objKeys (encodeBMap (encodeOOR encodeCallback) c.callbacks)).Pairwise
        (fun a b => strLtB a b = true)) ∧
    ((decodeBMapList (fun j => decodeOORSchema 1 j) unsortedRegistryInput).map
        (fun l => l.map Prod.fst) = .ok ["a", "b"] ∧
      objKeys unsortedRegistryInput = ["b", "a"]) ∧
    (∀ (d : Json → Except DErr (ObjectOrReference Schema))
      (kvs : List (String × Json)) (res : List (String × ObjectOrReference Schema)),
      decodeBMapGo d [] kvs = .ok res →
      res.Pairwise (fun a b => strLtB a.1 b.1 = true)) := by
  refine ⟨?_, ⟨rfl, rfl⟩, ?_⟩
  · intro c
    exact ⟨pairwise_keys_encodeBMap _ _, pairwise_keys_encodeBMap _ _,
      pairwise_keys_encodeBMap _ _, pairwise_keys_encodeBMap _ _,
      pairwise_keys_encodeBMap _ _, pairwise_keys_encodeBMap _ _,
      pairwise_keys_encodeBMap _ _, pairwise_keys_encodeBMap _ _,
      pairwise_keys_encodeBMap _ _⟩
  · intro d kvs res h
    exact decodeBMapGo_sorted kvs [] res List.Pairwise.nil h

/-- C10 (witness). -/
theorem components_sorted_registries_witness :
    List.Pairwise (fun a b => strLtB a.1 b.1 = true)
      [(("a" : String), ObjectOrReference.Ref (T := Schema) "#/components/schemas/A"),
       ("b", ObjectOrReference.Ref "#/components/schemas/B")] :=
  components_sorted_registries.2.2 (fun j => decodeOORSchema 1 j)
    [("b", .obj [("$ref", .str "#/components/schemas/B")]),
     ("a", .obj [("$ref", .str "#/components/schemas/A")])]
    [("a", .Ref "#/components/schemas/A"), ("b", .Ref "#/components/schemas/B")] rfl
